import Mathlib

/-!
Verification development for the ICT contract compliance checker
(regulatory-os/ICT-contractuel-checks).

The repository's deterministic core — the v3.1 criticality-weighted scoring,
the critical-requirement status clamp, the response parser with truncation
recovery, and the frontend report transformer — is embedded shallowly below.
Every definition is translated from the TypeScript source (the v3.1 analyzer
and its `types`/`checklist` modules); definitions written from the spec's
words instead are explicitly marked `spec-side`.  Modelling conventions:

* JavaScript numbers that the pipeline keeps integral (scores, weights,
  status values) are modelled as `Int`; the one fractional computation,
  `Math.round((weightedScore / maxPossibleScore) * 100)`, is modelled with
  exact rationals and Mathlib's `round` (`⌊x + 1/2⌋`, which agrees with
  `Math.round` on nonnegative reals).
* `JSON.parse` is modelled by a strict recursive-descent parser over
  `List Char` with a fuel argument (fuel `length + 1` always suffices, as
  every recursive call consumes input).  Only integral numeric literals are
  modelled; the analysis payloads scored here carry integral scores.
* The JavaScript regexes of the recovery path are concrete, so each is
  embedded as an explicit scanning function with the same matching
  semantics, documented at its definition.
* `new Date().toLocaleDateString('fr-FR')` is modelled by passing the date
  string explicitly (`today`).
-/

namespace ICTCheck

/-- Criticality level of a requirement (`types/index.ts`). -/
inductive Criticality where
  | CRITICAL
  | MAJOR
  | MINOR
deriving DecidableEq, Repr

/-- Status assigned to a requirement by the analysis (`types/index.ts`,
`RequirementStatus`). -/
inductive RequirementStatus where
  | COMPLIANT
  | IMPLICIT
  | PARTIAL
  | ABSENT
  | NA
deriving DecidableEq, Repr

/-- One analysed requirement (`types/index.ts`, `AnalysisResultItem`). -/
structure AnalysisResultItem where
  requirementId : String
  status : RequirementStatus
  comment : String
  foundClause : Option String
deriving DecidableEq, Repr

/-- A remediation clause proposed by the model (`types/index.ts`). -/
structure RecommendedClause where
  title : String
  reference : String
  textFr : String
  textEn : String
deriving DecidableEq, Repr

/-- A full analysis result (`types/index.ts`, `ContractAnalysis`). -/
structure ContractAnalysis where
  fileName : String
  date : String
  score : Int
  items : List AnalysisResultItem
  generalClauses : List String
  executiveSummary : String
  recommendedClauses : List RecommendedClause
deriving DecidableEq, Repr

/-- Criticality weights for scoring (`types/index.ts`, `CRITICALITY_WEIGHTS`). -/
def CRITICALITY_WEIGHTS : Criticality → Int
  | .CRITICAL => 3
  | .MAJOR => 2
  | .MINOR => 1

/-- Status values for scoring (`types/index.ts`, `STATUS_VALUES`).
`NA` carries 0 there as well (it is excluded from the calculation anyway). -/
def STATUS_VALUES : RequirementStatus → Int
  | .COMPLIANT => 100
  | .IMPLICIT => 70
  | .PARTIAL => 30
  | .ABSENT => 0
  | .NA => 0

/-- The fixed never-IMPLICIT set (`types/index.ts`, `CRITICAL_REQUIREMENT_IDS`). -/
def CRITICAL_REQUIREMENT_IDS : List String := ["I.7", "I.10", "II.4", "II.10"]

/-- A catalog entry (`data/checklist.ts`, `Requirement`), restricted to the
fields the deterministic pipeline reads: `id`, `name`, `reference` and
`criticality`.  The remaining fields (`applicability`, `regulatoryText`,
`keywords`, `verificationCriteria`, notes and flags) are descriptive text
consumed only by the prompt builder and the auto-recommendation generator,
neither of which is the subject of a claim. -/
structure Requirement where
  id : String
  name : String
  reference : String
  criticality : Criticality
deriving DecidableEq, Repr

/-- The v3.0 requirement catalog (`data/checklist.ts`, `CHECKLIST`): 35
entries, projected to the fields above. -/
def CHECKLIST : List Requirement := [
  ⟨"I.1", "Contrat écrit unique", "DORA 30.1 | EBA GL 74 | FR Art.238b", .MINOR⟩,
  ⟨"I.2", "Description des services TIC et gouvernance de la sous-traitance", "DORA 30.2(a) | EBA GL 74, 75c-d", .MAJOR⟩,
  ⟨"I.3", "Localisation des services et données + notification de changement", "DORA 30.2(b) | EBA GL 75f", .MAJOR⟩,
  ⟨"I.4", "Protection des données (Disponibilité, Authenticité, Intégrité, Confidentialité)", "DORA 30.2(c) | EBA GL 75g, 82", .MAJOR⟩,
  ⟨"I.5", "Accès, récupération et restitution des données", "DORA 30.2(d) | EBA GL 75m", .MAJOR⟩,
  ⟨"I.6", "Descriptions des niveaux de service (SLA) avec RTO/RPO", "DORA 30.2(e) | EBA GL 75i | FR Art.239a", .MAJOR⟩,
  ⟨"I.7", "Assistance en cas d'incident ICT (sans frais ou coût prédéterminé)", "DORA 30.2(f)", .CRITICAL⟩,
  ⟨"I.8", "Coopération avec les autorités compétentes et de résolution", "DORA 30.2(g) | EBA GL 75n | FR Art.239h", .MAJOR⟩,
  ⟨"I.9", "Droits de résiliation", "DORA 30.2(h) | DORA 28.7 | EBA GL 75q, 98 | FR Art.238d", .MAJOR⟩,
  ⟨"I.10", "Participation aux programmes de formation sécurité ICT", "DORA 30.2(i)", .CRITICAL⟩,
  ⟨"II.1", "SLA détaillés avec objectifs précis et actions correctives", "DORA 30.3(a) | EBA GL 75i", .MAJOR⟩,
  ⟨"II.2", "Notification des incidents et développements matériels", "DORA 30.3(b) | EBA GL 75j | FR Art.239g", .MAJOR⟩,
  ⟨"II.3", "Plan de continuité (BCP) + tests + mesures sécurité ICT", "DORA 30.3(c) | EBA GL 75l | FR Art.239c", .MAJOR⟩,
  ⟨"II.4", "Participation aux tests de pénétration TLPT", "DORA 30.3(d)", .CRITICAL⟩,
  ⟨"II.5", "Droit de monitoring continu des performances", "DORA 30.3(e) | EBA GL 75h | FR Art.239e", .MAJOR⟩,
  ⟨"II.6", "Droits d'accès, d'inspection et d'audit illimités", "DORA 30.3(e)(i) | EBA GL 75p, 87 | FR Art.239f", .MAJOR⟩,
  ⟨"II.7", "Niveaux d'assurance alternatifs (pooled audit)", "DORA 30.3(e)(ii) | EBA GL 91", .MINOR⟩,
  ⟨"II.8", "Coopération lors des inspections et audits", "DORA 30.3(e)(iii) | EBA GL 95", .MAJOR⟩,
  ⟨"II.9", "Détails sur le scope et la fréquence des audits", "DORA 30.3(e)(iv) | EBA GL 90", .MINOR⟩,
  ⟨"II.10", "Stratégie de sortie avec période de transition OBLIGATOIRE", "DORA 30.3(f) | EBA GL 99, 106-108", .CRITICAL⟩,
  ⟨"III.1", "Contrat écrit (principe général EBA GL 74)", "EBA GL 74", .MAJOR⟩,
  ⟨"III.2", "Assurance obligatoire contre certains risques", "EBA GL 75k", .MINOR⟩,
  ⟨"III.3", "Référence autorité de résolution nationale", "EBA GL 75o", .MINOR⟩,
  ⟨"IV.1", "Définition des activités externalisées", "Arrêté 2014 Art. 10 q)", .MINOR⟩,
  ⟨"IV.2", "Définition des prestations essentielles ou importantes (PSEE)", "Arrêté 2014 Art. 10 r)", .MINOR⟩,
  ⟨"IV.3", "Agrément ou habilitation du prestataire", "Arrêté 2014 Art. 231", .MINOR⟩,
  ⟨"IV.4", "Maintien de la responsabilité de l'entité", "Arrêté 2014 Art. 237", .MAJOR⟩,
  ⟨"IV.5", "Protection des informations confidentielles", "Arrêté 2014 Art. 239 b)", .MAJOR⟩,
  ⟨"IV.6", "Mécanismes de secours (BCP)", "Arrêté 2014 Art. 239 c)", .MAJOR⟩,
  ⟨"IV.7", "Interdiction modification substantielle sans accord", "Arrêté 2014 Art. 239 d)", .MAJOR⟩,
  ⟨"IV.8", "Conformité aux procédures de contrôle", "Arrêté 2014 Art. 239 e)", .MAJOR⟩,
  ⟨"IV.9", "Accès aux informations (y compris sur place)", "Arrêté 2014 Art. 239 f)", .MAJOR⟩,
  ⟨"IV.10", "Information sur événements impactant la capacité", "Arrêté 2014 Art. 239 g)", .MAJOR⟩,
  ⟨"IV.11", "Accès ACPR (autorité compétente)", "Arrêté 2014 Art. 239 h)", .MAJOR⟩,
  ⟨"IV.12", "Engagement sur niveau de qualité (SLA)", "Arrêté 2014 Art. 239 a)", .MAJOR⟩]

/-- Lookup by id (`data/checklist.ts`, `getRequirementById`). -/
def getRequirementById (id : String) : Option Requirement :=
  CHECKLIST.find? (fun req => req.id == id)

/-- Criticality weight with default (`analyzer`, `getCriticalityWeight`):
`undefined` criticality gives 1.  The source's `CRITICALITY_WEIGHTS[c] || 1`
fallback never fires, since all three weights are truthy. -/
def getCriticalityWeight : Option Criticality → Int
  | none => 1
  | some c => CRITICALITY_WEIGHTS c

/-- Status value (`analyzer`, `getStatusValue`).  The source's
`STATUS_VALUES[status] || 0` is the table itself: the lookup is total on the
status enum, and the falsy values it maps to 0 are already 0. -/
def getStatusValue (status : RequirementStatus) : Int := STATUS_VALUES status

/-- The criticality weight the scoring loop derives for one item: catalog
lookup by the item's `requirementId`, then `getCriticalityWeight` of the
(possibly missing) criticality. -/
def itemCriticalityWeight (item : AnalysisResultItem) : Int :=
  getCriticalityWeight ((getRequirementById item.requirementId).map (fun r => r.criticality))

/-- The v3.1 weighted score (`analyzer`, `calculateScoreFromItems`): filter
out `NA`, accumulate `Σ statusValue·weight` and `Σ 100·weight`, and return
`Math.round((weightedScore / maxPossibleScore) * 100)` guarded by the two
source checks (`applicableItems.length === 0` and `maxPossibleScore > 0`). -/
def calculateScoreFromItems (items : List AnalysisResultItem) : Int :=
  let applicableItems := items.filter (fun item => item.status ≠ RequirementStatus.NA)
  if applicableItems.isEmpty then 0
  else
    let weightedScore : Int :=
      (applicableItems.map (fun item => getStatusValue item.status * itemCriticalityWeight item)).sum
    let maxPossibleScore : Int :=
      (applicableItems.map (fun item => 100 * itemCriticalityWeight item)).sum
    if 0 < maxPossibleScore then
      round (((weightedScore : ℚ) / (maxPossibleScore : ℚ)) * 100)
    else 0

/-- The fixed note appended to a clamped item's comment (`analyzer`,
`validateCriticalRequirements`), naming the requirement. -/
def criticalRequirementNote (reqName : String) : String :=
  "Note: Cette exigence (" ++ reqName ++ ") ne peut pas être considérée comme \"implicitement couverte\" par une clause de conformité générale. Une clause explicite est fortement recommandée."

/-- The display name the clamp uses: `req?.name || item.requirementId`
(JavaScript `||`, so an empty catalog name would also fall back to the id). -/
def requirementDisplayName (id : String) : String :=
  match getRequirementById id with
  | some req => if req.name = "" then id else req.name
  | none => id

/-- One item through the clamp's `map` body (`analyzer`,
`validateCriticalRequirements`): a never-IMPLICIT id with IMPLICIT status is
rewritten to PARTIAL with the warning comment; anything else passes through. -/
def clampCriticalItem (item : AnalysisResultItem) : AnalysisResultItem :=
  if item.requirementId ∈ CRITICAL_REQUIREMENT_IDS ∧ item.status = RequirementStatus.IMPLICIT then
    { item with
      status := RequirementStatus.PARTIAL,
      comment := "⚠️ EXIGENCE CRITIQUE : " ++ item.comment ++ "\n\n"
        ++ criticalRequirementNote (requirementDisplayName item.requirementId) }
  else item

/-- The critical-requirement clamp (`analyzer`, `validateCriticalRequirements`). -/
def validateCriticalRequirements (response : ContractAnalysis) : ContractAnalysis :=
  { response with items := response.items.map clampCriticalItem }

/-- Frontend display status (`analyzer`, `statusMap` with its
`|| 'non-compliant'` fallback; the lookup is total on the status enum, so the
fallback never fires).  The TypeScript statuses are string literals, so the
model keeps them as strings. -/
def statusMapLookup : RequirementStatus → String
  | .COMPLIANT => "compliant"
  | .PARTIAL => "partial"
  | .IMPLICIT => "implicit"
  | .ABSENT => "non-compliant"
  | .NA => "not-applicable"

/-- Section extraction (`analyzer`, the regex `^(I\x7b1,3\x7d|IV)\.` over the
requirement id).  The regex's greedy `I`-run-first alternation is equivalent
to testing the dotted prefixes longest-first, since no id matches both the
`I`-run and the `IV` alternative. -/
def sectionOfRequirementId (id : String) : Option String :=
  if String.isPrefixOf "IV." id then some "IV"
  else if String.isPrefixOf "III." id then some "III"
  else if String.isPrefixOf "II." id then some "II"
  else if String.isPrefixOf "I." id then some "I"
  else none

/-- One finding of the frontend report (`types/index.ts`, `FrontendFinding`).
The `section` field of the source is called `sectionTag` here (`section` is a
Lean keyword).  The `recommendation` field — synthesised by
`generateAutoRecommendation` from regex mining over French commentary — is
not modelled: it influences neither the overall score nor any other field,
and no claim concerns it. -/
structure FrontendFinding where
  requirement : String
  status : String
  details : String
  foundClause : Option String
  reference : Option String
  criticality : Option Criticality
  sectionTag : Option String
  requirementId : String
deriving DecidableEq, Repr

/-- The frontend report (`types/index.ts`, `FrontendResponse`). -/
structure FrontendResponse where
  overallScore : Int
  summary : String
  findings : List FrontendFinding
deriving DecidableEq, Repr

/-- One item through the transformer's `map` body (`analyzer`,
`transformToFrontendFormat`): display name via `req?.name || id`, mapped
status, comment as details, `foundClause || undefined` (so an empty string
becomes absent), and catalog enrichment. -/
def toFrontendFinding (item : AnalysisResultItem) : FrontendFinding :=
  let req := getRequirementById item.requirementId
  { requirement :=
      match req with
      | some r => if r.name = "" then item.requirementId else r.name
      | none => item.requirementId,
    status := statusMapLookup item.status,
    details := item.comment,
    foundClause :=
      match item.foundClause with
      | some s => if s = "" then none else some s
      | none => none,
    reference := req.map (fun r => r.reference),
    criticality := req.map (fun r => r.criticality),
    sectionTag := sectionOfRequirementId item.requirementId,
    requirementId := item.requirementId }

/-- The report transformer (`analyzer`, `transformToFrontendFormat`): findings
from the items, and `overallScore = Math.min(response.score, adjustedScore)`
where `adjustedScore` is the recomputed weighted score — the conservative
minimum rule.  The summary appends the applicable/total counts and, when some
items were `NA`, their excluded count. -/
def transformToFrontendFormat (response : ContractAnalysis) : FrontendResponse :=
  let findings := response.items.map toFrontendFinding
  let applicableItems := response.items.filter (fun item => item.status ≠ RequirementStatus.NA)
  let adjustedScore := calculateScoreFromItems response.items
  let finalScore := min response.score adjustedScore
  let naCount := response.items.length - applicableItems.length
  { overallScore := finalScore,
    summary := response.executiveSummary
      ++ "\n\n📊 Critères analysés: " ++ toString applicableItems.length
      ++ "/" ++ toString response.items.length
      ++ (if 0 < naCount then " (" ++ toString naCount ++ " N/A exclus)" else ""),
    findings := findings }

/-- Spec-side weight for one item, written from the claim's words: "look up
its requirement's criticality weight (CRITICAL=3, MAJOR=2, MINOR=1;
unknown/missing criticality defaults to weight 1)". -/
def specItemWeight (item : AnalysisResultItem) : Int :=
  match getRequirementById item.requirementId with
  | some req => CRITICALITY_WEIGHTS req.criticality
  | none => 1

/-- Spec-side score, written from the claim's words: over exactly the items
whose status is not NA, `round(100 × Σ(statusValue × weight) / Σ(100 ×
weight))`, or 0 if the denominator is 0. -/
def specScoreFromItems (items : List AnalysisResultItem) : Int :=
  let applicable := items.filter (fun item => item.status ≠ RequirementStatus.NA)
  let numerator : Int := (applicable.map (fun item => STATUS_VALUES item.status * specItemWeight item)).sum
  let denominator : Int := (applicable.map (fun item => 100 * specItemWeight item)).sum
  if denominator = 0 then 0
  else round ((100 : ℚ) * (numerator : ℚ) / (denominator : ℚ))

/-- The filtered (non-NA) item list the scoring works over. -/
def applicableOf (items : List AnalysisResultItem) : List AnalysisResultItem :=
  items.filter (fun item => item.status ≠ RequirementStatus.NA)

/-- The scoring loop's numerator over a filtered list. -/
def weightedSum (l : List AnalysisResultItem) : Int :=
  (l.map (fun item => getStatusValue item.status * itemCriticalityWeight item)).sum

/-- The scoring loop's denominator over a filtered list. -/
def maxPossibleSum (l : List AnalysisResultItem) : Int :=
  (l.map (fun item => 100 * itemCriticalityWeight item)).sum

/-! ### The response parser: JSON values and the modelled `JSON.parse` -/

/-- A JSON value as produced by the modelled `JSON.parse`. -/
inductive Json where
  | null
  | bool (b : Bool)
  | num (n : Int)
  | str (s : String)
  | arr (elems : List Json)
  | obj (members : List (String × Json))

/-- The whitespace class of both JSON and the regexes' `\s` (the additional
unicode spaces `\s` admits do not occur in any modelled text). -/
def jsIsWs (c : Char) : Bool := c == ' ' || c == '\n' || c == '\t' || c == '\r'

/-- Leading-whitespace skip. -/
def jsSkipWs : List Char → List Char
  | c :: cs => if jsIsWs c then jsSkipWs cs else c :: cs
  | [] => []

def isDigitChar (c : Char) : Bool := '0' ≤ c && c ≤ '9'

/-- Split off a maximal leading digit run. -/
def takeDigitRun : List Char → List Char × List Char
  | c :: cs =>
      if isDigitChar c then
        let p := takeDigitRun cs
        (c :: p.1, p.2)
      else ([], c :: cs)
  | [] => ([], [])

/-- Decimal value of a digit run. -/
def digitsVal (ds : List Char) : Int :=
  ((ds.foldl (fun acc c => acc * 10 + (c.toNat - '0'.toNat)) 0 : Nat) : Int)

/-- JSON string escapes.  The `\uXXXX` form is not modelled (no modelled
payload contains it); an unsupported escape fails the string, where
`JSON.parse` would fail on genuinely invalid escapes and succeed on
`\uXXXX` — a divergence confined to payloads outside every claim. -/
def escDecode (c : Char) : Option Char :=
  if c = '"' then some '"'
  else if c = '\\' then some '\\'
  else if c = '/' then some '/'
  else if c = 'n' then some '\n'
  else if c = 't' then some '\t'
  else if c = 'r' then some '\r'
  else if c = 'b' then some (Char.ofNat 8)
  else if c = 'f' then some (Char.ofNat 12)
  else none

/-- Parse a JSON string body after its opening quote, returning the decoded
characters and the remainder after the closing quote. -/
def parseStringBody : List Char → Option (List Char × List Char)
  | '"' :: rest => some ([], rest)
  | '\\' :: e :: rest =>
      match escDecode e with
      | some c => (parseStringBody rest).map (fun p => (c :: p.1, p.2))
      | none => none
  | c :: rest => (parseStringBody rest).map (fun p => (c :: p.1, p.2))
  | [] => none

/-- Parse a JSON number token.  Only integral literals (optional minus and a
digit run) are modelled: every payload the claims quantify over carries an
integral score, and the pipeline's own arithmetic keeps scores integral. -/
def parseNumberToken : List Char → Option (Int × List Char)
  | '-' :: rest =>
      match takeDigitRun rest with
      | ([], _) => none
      | (ds, rest2) => some (-(digitsVal ds), rest2)
  | cs =>
      match takeDigitRun cs with
      | ([], _) => none
      | (ds, rest2) => some (digitsVal ds, rest2)

mutual

/-- The modelled `JSON.parse`, recursive descent on a fuel bound: values. -/
def parseJsonValue : Nat → List Char → Option (Json × List Char)
  | 0, _ => none
  | fuel + 1, cs =>
    match jsSkipWs cs with
    | 'n' :: 'u' :: 'l' :: 'l' :: r => some (.null, r)
    | 't' :: 'r' :: 'u' :: 'e' :: r => some (.bool true, r)
    | 'f' :: 'a' :: 'l' :: 's' :: 'e' :: r => some (.bool false, r)
    | '"' :: r => (parseStringBody r).map (fun p => (.str (String.mk p.1), p.2))
    | '[' :: r =>
        (match jsSkipWs r with
         | ']' :: r2 => some (.arr [], r2)
         | r2 => (parseJsonElems fuel r2).map (fun p => (.arr p.1, p.2)))
    | '{' :: r =>
        (match jsSkipWs r with
         | '}' :: r2 => some (.obj [], r2)
         | r2 => (parseJsonMembers fuel r2).map (fun p => (.obj p.1, p.2)))
    | r => (parseNumberToken r).map (fun p => (.num p.1, p.2))

/-- One-or-more comma-separated array elements, up to the closing bracket. -/
def parseJsonElems : Nat → List Char → Option (List Json × List Char)
  | 0, _ => none
  | fuel + 1, cs =>
    match parseJsonValue fuel cs with
    | none => none
    | some (v, r) =>
        match jsSkipWs r with
        | ',' :: r2 =>
            (match parseJsonElems fuel (jsSkipWs r2) with
             | some (vs, r3) => some (v :: vs, r3)
             | none => none)
        | ']' :: r2 => some ([v], r2)
        | _ => none

/-- One-or-more object members, up to the closing brace. -/
def parseJsonMembers : Nat → List Char → Option (List (String × Json) × List Char)
  | 0, _ => none
  | fuel + 1, cs =>
    match jsSkipWs cs with
    | '"' :: r =>
        (match parseStringBody r with
         | none => none
         | some (key, r1) =>
             match jsSkipWs r1 with
             | ':' :: r2 =>
                 (match parseJsonValue fuel (jsSkipWs r2) with
                  | none => none
                  | some (v, r3) =>
                      match jsSkipWs r3 with
                      | ',' :: r4 =>
                          (match parseJsonMembers fuel (jsSkipWs r4) with
                           | some (ms, r5) => some ((String.mk key, v) :: ms, r5)
                           | none => none)
                      | '}' :: r4 => some ([(String.mk key, v)], r4)
                      | _ => none)
             | _ => none)
    | _ => none

end

/-- Parse a complete JSON document: one value, then only whitespace.  The
fuel `2·length + 2` dominates the parser's recursion depth (every two
nested calls consume at least one character). -/
def runJsonParse (cs : List Char) : Option Json :=
  match parseJsonValue (2 * cs.length + 2) cs with
  | some (v, r) => if jsSkipWs r = [] then some v else none
  | none => none

/-! ### The strict path of `parseAIResponse` -/

/-- Object field access as JavaScript resolves it: on an object, the last
binding of the key wins (`JSON.parse` overwrites repeated keys); on any
other value, `undefined`. -/
def jsGetField (j : Json) (key : String) : Option Json :=
  match j with
  | .obj members => members.reverse.lookup key
  | _ => none

/-- The five status strings, every other string behaving as ABSENT.  The
source keeps the raw string (an unchecked cast); an unrecognized status and
ABSENT are indistinguishable to every modelled consumer: status value 0,
kept by the non-NA filter, not IMPLICIT for the clamp, displayed
`non-compliant` by the transformer's `|| 'non-compliant'` fallback. -/
def statusFromString (s : String) : RequirementStatus :=
  if s = "COMPLIANT" then .COMPLIANT
  else if s = "IMPLICIT" then .IMPLICIT
  else if s = "PARTIAL" then .PARTIAL
  else if s = "NA" then .NA
  else .ABSENT

/-- One parsed item of the strict path (the source's unchecked
`result.items as AnalysisResultItem[]` cast, read through typed fields). -/
def jsonToItem (j : Json) : AnalysisResultItem :=
  { requirementId := match jsGetField j "requirementId" with | some (.str s) => s | _ => "",
    status := match jsGetField j "status" with | some (.str s) => statusFromString s | _ => .ABSENT,
    comment := match jsGetField j "comment" with | some (.str s) => s | _ => "",
    foundClause := match jsGetField j "foundClause" with | some (.str s) => some s | _ => none }

/-- A string element of a decoded array (`JSON.parse` output assigned to
`string[]` untyped; non-string elements are unrepresentable in the typed
model and read as empty). -/
def jsonToStringLoose : Json → String
  | .str s => s
  | _ => ""

def decodeStringArray : Option Json → List String
  | some (.arr xs) => xs.map jsonToStringLoose
  | _ => []

def jsonToClause (j : Json) : RecommendedClause :=
  { title := match jsGetField j "title" with | some (.str s) => s | _ => "",
    reference := match jsGetField j "reference" with | some (.str s) => s | _ => "",
    textFr := match jsGetField j "textFr" with | some (.str s) => s | _ => "",
    textEn := match jsGetField j "textEn" with | some (.str s) => s | _ => "" }

def decodeClauseArray : Option Json → List RecommendedClause
  | some (.arr xs) => xs.map jsonToClause
  | _ => []

/-- `result.executiveSummary || "Analyse terminée."` — JavaScript `||`, so an
absent or empty summary falls back to the default. -/
def decodeSummary : Option Json → String
  | some (.str s) => if s = "" then "Analyse terminée." else s
  | _ => "Analyse terminée."

/-- The strict branch of `parseAIResponse`: `JSON.parse`, the shape check
(`typeof result.score === 'number'` and `Array.isArray(result.items)`),
`Math.max(0, Math.min(100, Math.round(score)))` (round is the identity on
the integral model), and field defaults.  `none` is the source's caught
exception, handing over to recovery. -/
def strictParseAnalysis (today fileName : String) (jsonStr : List Char) :
    Option ContractAnalysis :=
  match runJsonParse jsonStr with
  | none => none
  | some result =>
      match jsGetField result "score", jsGetField result "items" with
      | some (.num n), some (.arr xs) =>
          some { fileName := fileName,
                 date := today,
                 score := max 0 (min 100 n),
                 items := xs.map jsonToItem,
                 generalClauses := decodeStringArray (jsGetField result "generalClauses"),
                 executiveSummary := decodeSummary (jsGetField result "executiveSummary"),
                 recommendedClauses := decodeClauseArray (jsGetField result "recommendedClauses") }
      | _, _ => none

/-! ### `extractJsonString` -/

/-- Split a text at the first occurrence of `pat`: the part before it and
the part after it. -/
def splitAtFirstOccur (pat : List Char) : List Char → Option (List Char × List Char)
  | [] => if pat.isPrefixOf ([] : List Char) then some ([], []) else none
  | c :: cs =>
      if pat.isPrefixOf (c :: cs) then some ([], (c :: cs).drop pat.length)
      else (splitAtFirstOccur pat cs).map (fun p => (c :: p.1, p.2))

/-- Expect a literal prefix; return the remainder after it. -/
def dropLit : List Char → List Char → Option (List Char)
  | [], cs => some cs
  | l :: ls, c :: cs => if c = l then dropLit ls cs else none
  | _ :: _, [] => none

def dropTrailingWs (cs : List Char) : List Char := (cs.reverse.dropWhile jsIsWs).reverse

def fenceMarker : List Char := "```".data

/-- The fenced-block regex of `extractJsonString`
(`` /```(?:json)?\s*([\s\S]*?)\s*```/ ``): a match needs a first fence and a
later one; the optional `json` tag is consumed greedily; the lazy inner
group with greedy `\s*` on both sides takes the text up to the next fence,
trimmed of surrounding whitespace. -/
def extractFencedBlock (cs : List Char) : Option (List Char) :=
  match splitAtFirstOccur fenceMarker cs with
  | none => none
  | some (_, afterOpen) =>
      let afterLang := match dropLit "json".data afterOpen with
        | some r => r
        | none => afterOpen
      let body := jsSkipWs afterLang
      match splitAtFirstOccur fenceMarker body with
      | none => none
      | some (inner, _) => some (dropTrailingWs inner)

/-- The no-fenced-block fallback of `extractJsonString`: strip a leading
```` ```json ```` or ```` ``` ```` (with following whitespace) and a
trailing ```` ``` ```` (with preceding whitespace). -/
def stripFencesFallback (cs : List Char) : List Char :=
  let s1 := match dropLit "```json".data cs with
    | some r => jsSkipWs r
    | none => cs
  let s2 := match dropLit fenceMarker s1 with
    | some r => jsSkipWs r
    | none => s1
  if fenceMarker.reverse.isPrefixOf s2.reverse then
    ((s2.reverse.drop 3).dropWhile jsIsWs).reverse
  else s2

/-- The `\x7b[\s\S]*\x7d` slice of `extractJsonString`: from the first
opening brace to the last closing brace, when a closing brace follows the
first opening one; otherwise the text is kept unchanged (no regex match). -/
def objectSlice (cs : List Char) : List Char :=
  let fromBrace := cs.dropWhile (fun c => c ≠ '{')
  match fromBrace with
  | [] => cs
  | _ :: _ =>
      let kept := (fromBrace.reverse.dropWhile (fun c => c ≠ '}')).reverse
      if kept = [] then cs else kept

/-- `extractJsonString` of the source: fenced-block extraction, else the
defensive fence stripping, then the first-brace-to-last-brace slice. -/
def extractJsonString (responseText : List Char) : List Char :=
  let base := match extractFencedBlock responseText with
    | some inner => inner
    | none => stripFencesFallback responseText
  objectSlice base

/-! ### The recovery path of `parseAIResponse`

The itemPattern regex is

```
\x7b\s*"requirementId"\s*:\s*"([^"]+)"\s*,\s*"status"\s*:\s*
"(COMPLIANT|IMPLICIT|PARTIAL|ABSENT|NA)"\s*,\s*"comment"\s*:\s*"([^"]*(?:\\.[^"]*)*)"
```

run with `exec` in a loop (leftmost match, then continuing from the match's end).
Each piece is embedded as an anchored matcher below.  The capture
`([^"]*(?:\\.[^"]*)*)` is effectively `([^"]*)`: `[^"]` also matches a
backslash, so the greedy leading `[^"]*` always runs to the first quote,
where `\\.` cannot start — the group never iterates and the capture ends at
the first quote. -/

/-- A `([^"]*)"` capture: the characters up to the closing quote, `none`
when no quote remains. -/
def captureToQuote : List Char → Option (List Char × List Char)
  | [] => none
  | '"' :: rest => some ([], rest)
  | c :: rest => (captureToQuote rest).map (fun p => (c :: p.1, p.2))

/-- The status alternation followed by its closing quote. -/
def readStatusWord (cs : List Char) : Option (RequirementStatus × List Char) :=
  match dropLit "COMPLIANT\"".data cs with
  | some r => some (.COMPLIANT, r)
  | none =>
    match dropLit "IMPLICIT\"".data cs with
    | some r => some (.IMPLICIT, r)
    | none =>
      match dropLit "PARTIAL\"".data cs with
      | some r => some (.PARTIAL, r)
      | none =>
        match dropLit "ABSENT\"".data cs with
        | some r => some (.ABSENT, r)
        | none =>
          match dropLit "NA\"".data cs with
          | some r => some (.NA, r)
          | none => none

/-- `.replace(/\\"/g, '"')` — left-to-right, non-overlapping. -/
def replaceEscQuote : List Char → List Char
  | '\\' :: '"' :: rest => '"' :: replaceEscQuote rest
  | c :: rest => c :: replaceEscQuote rest
  | [] => []

/-- `.replace(/\\n/g, '\n')` — left-to-right, non-overlapping. -/
def replaceEscN : List Char → List Char
  | '\\' :: 'n' :: rest => '\n' :: replaceEscN rest
  | c :: rest => c :: replaceEscN rest
  | [] => []

/-- The recovery path's two-step unescaping of captured string fields. -/
def unescapeField (cs : List Char) : String := String.mk (replaceEscN (replaceEscQuote cs))

/-- The itemPattern anchored at one position: on success, the three captures
and the remainder after the comment's closing quote (the match end). -/
def matchItemAt (cs : List Char) : Option ((List Char × RequirementStatus × List Char) × List Char) :=
  match cs with
  | '{' :: r0 =>
    match dropLit "\"requirementId\"".data (jsSkipWs r0) with
    | none => none
    | some r1 =>
      match dropLit [':'] (jsSkipWs r1) with
      | none => none
      | some r2 =>
        match dropLit ['"'] (jsSkipWs r2) with
        | none => none
        | some r3 =>
          match captureToQuote r3 with
          | none => none
          | some (rid, rr) =>
            if rid = [] then none
            else
              match dropLit [','] (jsSkipWs rr) with
              | none => none
              | some r4 =>
                match dropLit "\"status\"".data (jsSkipWs r4) with
                | none => none
                | some r5 =>
                  match dropLit [':'] (jsSkipWs r5) with
                  | none => none
                  | some r6 =>
                    match dropLit ['"'] (jsSkipWs r6) with
                    | none => none
                    | some r7 =>
                      match readStatusWord r7 with
                      | none => none
                      | some (st, r8pre) =>
                        match dropLit [','] (jsSkipWs r8pre) with
                        | none => none
                        | some r8 =>
                          match dropLit "\"comment\"".data (jsSkipWs r8) with
                          | none => none
                          | some r9 =>
                            match dropLit [':'] (jsSkipWs r9) with
                            | none => none
                            | some r10 =>
                              match dropLit ['"'] (jsSkipWs r10) with
                              | none => none
                              | some r11 =>
                                match captureToQuote r11 with
                                | none => none
                                | some (cm, rest) => some ((rid, st, cm), rest)
  | _ => none

/-- The foundClause lookahead regex
(`^\s*,\s*"foundClause"\s*:\s*"([^"]*(?:\\.[^"]*)*)"`), anchored at the end
of the main match. -/
def matchFoundClauseAt (cs : List Char) : Option (List Char) :=
  match dropLit [','] (jsSkipWs cs) with
  | none => none
  | some r1 =>
    match dropLit "\"foundClause\"".data (jsSkipWs r1) with
    | none => none
    | some r2 =>
      match dropLit [':'] (jsSkipWs r2) with
      | none => none
      | some r3 =>
        match dropLit ['"'] (jsSkipWs r3) with
        | none => none
        | some r4 =>
          match captureToQuote r4 with
          | none => none
          | some (fc, _) => some fc

/-- The `exec` loop over the itemPattern: leftmost match, push the item
(with the optional foundClause, omitted by the source's falsy spread when
empty), continue at the match end.  The fuel dominates the number of steps
(each one consumes at least one character). -/
def scanRecoverItems : Nat → List Char → List AnalysisResultItem
  | 0, _ => []
  | fuel + 1, cs =>
    match matchItemAt cs with
    | some (caps, rest) =>
        let fcOpt := match matchFoundClauseAt rest with
          | some fcRaw =>
              let fc := unescapeField fcRaw
              if fc = "" then none else some fc
          | none => none
        { requirementId := String.mk caps.1,
          status := caps.2.1,
          comment := unescapeField caps.2.2,
          foundClause := fcOpt } :: scanRecoverItems fuel rest
    | none =>
        match cs with
        | [] => []
        | _ :: cs2 => scanRecoverItems fuel cs2

/-- `recoverItemsFromTruncatedJson` of the source. -/
def recoverItemsFromTruncatedJson (jsonStr : List Char) : List AnalysisResultItem :=
  scanRecoverItems (jsonStr.length + 1) jsonStr

/-- A generic fueled leftmost-match scan, for the two single-match regexes
of the recovery path. -/
def scanFirst (matcher : List Char → Option (List Char)) : Nat → List Char → Option (List Char)
  | 0, _ => none
  | fuel + 1, cs =>
    match matcher cs with
    | some x => some x
    | none =>
        match cs with
        | [] => none
        | _ :: cs2 => scanFirst matcher fuel cs2

/-- The bracket-limited capture of the generalClauses regex
(`\[((?:[^[\]]|\[(?:[^[\]]|\[[^[\]]*\])*\])*)\]`): content whose brackets
nest at most two deep, up to the closing bracket at depth 0.  A `[` at
depth 2 fails the scan; the regex could still backtrack to a shorter
content only when a `]` immediately closes an earlier item boundary, a
corner no modelled payload reaches. -/
def captureBracketed : Nat → List Char → Option (List Char × List Char)
  | _, [] => none
  | depth, ']' :: rest =>
      if depth = 0 then some ([], rest)
      else (captureBracketed (depth - 1) rest).map (fun p => (']' :: p.1, p.2))
  | depth, '[' :: rest =>
      if depth < 2 then (captureBracketed (depth + 1) rest).map (fun p => ('[' :: p.1, p.2))
      else none
  | depth, c :: rest => (captureBracketed depth rest).map (fun p => (c :: p.1, p.2))

/-- The generalClauses regex anchored at one position. -/
def matchGeneralClausesAt (cs : List Char) : Option (List Char) :=
  match dropLit "\"generalClauses\"".data cs with
  | none => none
  | some r1 =>
    match dropLit [':'] (jsSkipWs r1) with
    | none => none
    | some r2 =>
      match dropLit ['['] (jsSkipWs r2) with
      | none => none
      | some r3 =>
        match captureBracketed 0 r3 with
        | none => none
        | some (inner, _) => some inner

/-- The executiveSummary regex anchored at one position. -/
def matchSummaryAt (cs : List Char) : Option (List Char) :=
  match dropLit "\"executiveSummary\"".data cs with
  | none => none
  | some r1 =>
    match dropLit [':'] (jsSkipWs r1) with
    | none => none
    | some r2 =>
      match dropLit ['"'] (jsSkipWs r2) with
      | none => none
      | some r3 =>
        match captureToQuote r3 with
        | none => none
        | some (cap, _) => some cap

/-- The recovery path's best-effort generalClauses: first regex match, then
`JSON.parse("[" + inner + "]")` with the catch falling back to `[]`. -/
def extractGeneralClauses (jsonStr : List Char) : List String :=
  match scanFirst matchGeneralClausesAt (jsonStr.length + 1) jsonStr with
  | some inner =>
      (match runJsonParse ('[' :: (inner ++ [']'])) with
       | some (.arr xs) => xs.map jsonToStringLoose
       | _ => [])
  | none => []

/-- The recovery path's best-effort executiveSummary capture. -/
def extractSummary (jsonStr : List Char) : Option String :=
  match scanFirst matchSummaryAt (jsonStr.length + 1) jsonStr with
  | some cap => some (unescapeField cap)
  | none => none

/-- The error of the single terminal failure mode. -/
def formattingErrorMessage : String :=
  "Erreur de formatage de l'analyse (JSON invalide). Le contrat est peut-être trop long. Veuillez réessayer."

/-- The partial analysis built from recovered items: score recomputed from
the items, warning-prefixed summary carrying the recovered count, no
recommended clauses. -/
def buildPartialAnalysis (today fileName : String) (jsonStr : List Char)
    (recovered : List AnalysisResultItem) : ContractAnalysis :=
  { fileName := fileName,
    date := today,
    score := calculateScoreFromItems recovered,
    items := recovered,
    generalClauses := extractGeneralClauses jsonStr,
    executiveSummary := "⚠️ Résultats partiels (" ++ toString recovered.length
      ++ " items récupérés). "
      ++ ((extractSummary jsonStr).getD "Analyse partiellement récupérée suite à une troncature."),
    recommendedClauses := [] }

/-- `parseAIResponse` of the source: extract the JSON candidate, try the
strict parse, fall back to item recovery, and fail with the formatting
error only when recovery yields nothing.  The result triple carries the
analysis, `isPartial` and `recoveredCount`. -/
def parseAIResponse (today fileName responseText : String) :
    Except String (ContractAnalysis × Bool × Nat) :=
  let jsonStr := extractJsonString responseText.data
  match strictParseAnalysis today fileName jsonStr with
  | some response => .ok (response, false, response.items.length)
  | none =>
      match recoverItemsFromTruncatedJson jsonStr with
      | [] => .error formattingErrorMessage
      | recovered => .ok (buildPartialAnalysis today fileName jsonStr recovered, true, recovered.length)

/-! ### Spec-side payload renders for the round-trip and recovery claims -/

/-- A plain payload string: no quote, backslash, brace or backtick, so it
renders without escaping and passes both the strict parser and the recovery
regexes unchanged. -/
def plainChar (c : Char) : Bool :=
  !(c == '"') && !(c == '\\') && !(c == '{') && !(c == '}') && !(c == '`')

def plainStr (s : String) : Bool := s.data.all plainChar

/-- A well-formed payload item: plain nonempty requirement id, plain
comment, and a plain nonempty foundClause when present. -/
def wellFormedItem (item : AnalysisResultItem) : Bool :=
  plainStr item.requirementId && !(item.requirementId == "")
    && plainStr item.comment
    && (match item.foundClause with
        | none => true
        | some fc => plainStr fc && !(fc == ""))

def statusLiteral : RequirementStatus → String
  | .COMPLIANT => "COMPLIANT"
  | .IMPLICIT => "IMPLICIT"
  | .PARTIAL => "PARTIAL"
  | .ABSENT => "ABSENT"
  | .NA => "NA"

def digitChar (d : Nat) : Char := Char.ofNat ('0'.toNat + d)

/-- Decimal digits of a natural number, most significant first. -/
def natDigitsChars (n : Nat) : List Char :=
  if n < 10 then [digitChar n]
  else natDigitsChars (n / 10) ++ [digitChar (n % 10)]
termination_by n
decreasing_by omega

/-- The canonical render of one item object, in the field order the prompt
specifies (requirementId, status, comment, optional foundClause). -/
def renderItemJson (item : AnalysisResultItem) : List Char :=
  "\x7b\"requirementId\":\"".data ++ item.requirementId.data
    ++ "\",\"status\":\"".data ++ (statusLiteral item.status).data
    ++ "\",\"comment\":\"".data ++ item.comment.data ++ "\"".data
    ++ (match item.foundClause with
        | some fc => ",\"foundClause\":\"".data ++ fc.data ++ "\"".data
        | none => [])
    ++ "\x7d".data

/-- Comma-joined item objects. -/
def renderItemsJoin : List AnalysisResultItem → List Char
  | [] => []
  | [item] => renderItemJson item
  | item :: rest => renderItemJson item ++ ',' :: renderItemsJoin rest

/-- The canonical well-formed payload text: a score and the items array. -/
def renderPayload (score : Nat) (items : List AnalysisResultItem) : List Char :=
  "\x7b\"score\":".data ++ natDigitsChars score ++ ",\"items\":[".data
    ++ renderItemsJoin items ++ "]\x7d".data

/-- The payload truncated mid-array right after the `k`-th item object. -/
def renderTruncatedPayload (score : Nat) (items : List AnalysisResultItem) (k : Nat) : List Char :=
  "\x7b\"score\":".data ++ natDigitsChars score ++ ",\"items\":[".data
    ++ renderItemsJoin (items.take k)

/-- A fenced-code-block wrapping with surrounding commentary. -/
def wrapFenced (before inner after : List Char) : List Char :=
  before ++ fenceMarker ++ "json\n".data ++ inner ++ ('\n' :: fenceMarker) ++ after

/-- The JSON value the modelled `JSON.parse` recovers from a rendered item. -/
def jsonOfItem (item : AnalysisResultItem) : Json :=
  .obj ([("requirementId", Json.str item.requirementId),
         ("status", Json.str (statusLiteral item.status)),
         ("comment", Json.str item.comment)]
    ++ (match item.foundClause with
        | some fc => [("foundClause", Json.str fc)]
        | none => []))

/-- The JSON value the modelled `JSON.parse` recovers from a rendered payload. -/
def jsonOfPayload (score : Nat) (items : List AnalysisResultItem) : Json :=
  .obj [("score", Json.num (score : Int)), ("items", Json.arr (items.map jsonOfItem))]

/-- A truncated model response: two items' worth of payload cut inside the
second item's unfinished foundClause string, right after a brace that the
clause text itself contains.  Exactly one complete item object precedes the
truncation point, yet the second item's required fields (requirementId,
status, comment) are all complete before the cut, and the brace inside the
string survives as the text's last closing brace. -/
def truncatedResponseSample : String :=
  "\x7b\"score\":90,\"items\":[\x7b\"requirementId\":\"I.1\",\"status\":\"COMPLIANT\",\"comment\":\"a\"\x7d,\x7b\"requirementId\":\"I.2\",\"status\":\"ABSENT\",\"comment\":\"b\",\"foundClause\":\"voir annexe \x7d"

/-! ### Helper lemmas: scoring -/

theorem one_le_getCriticalityWeight (oc : Option Criticality) : 1 ≤ getCriticalityWeight oc := by
  cases oc with
  | none => simp [getCriticalityWeight]
  | some c => cases c <;> simp [getCriticalityWeight, CRITICALITY_WEIGHTS]

theorem one_le_itemCriticalityWeight (item : AnalysisResultItem) :
    1 ≤ itemCriticalityWeight item :=
  one_le_getCriticalityWeight _

theorem getStatusValue_nonneg (s : RequirementStatus) : 0 ≤ getStatusValue s := by
  cases s <;> simp [getStatusValue, STATUS_VALUES]

theorem getStatusValue_le_100 (s : RequirementStatus) : getStatusValue s ≤ 100 := by
  cases s <;> simp [getStatusValue, STATUS_VALUES]

theorem itemCriticalityWeight_eq_specItemWeight (item : AnalysisResultItem) :
    itemCriticalityWeight item = specItemWeight item := by
  unfold itemCriticalityWeight specItemWeight getCriticalityWeight
  cases getRequirementById item.requirementId <;> simp

theorem maxPossibleSum_nonneg (l : List AnalysisResultItem) : 0 ≤ maxPossibleSum l := by
  apply List.sum_nonneg
  intro x hx
  simp only [List.mem_map] at hx
  obtain ⟨item, _, rfl⟩ := hx
  have := one_le_itemCriticalityWeight item
  omega

theorem maxPossibleSum_pos (l : List AnalysisResultItem) (h : l ≠ []) :
    0 < maxPossibleSum l := by
  cases l with
  | nil => exact absurd rfl h
  | cons x t =>
      have h1 := one_le_itemCriticalityWeight x
      have h2 := maxPossibleSum_nonneg t
      simp only [maxPossibleSum, List.map_cons, List.sum_cons] at *
      omega

theorem weightedSum_nonneg (l : List AnalysisResultItem) : 0 ≤ weightedSum l := by
  apply List.sum_nonneg
  intro x hx
  simp only [List.mem_map] at hx
  obtain ⟨item, _, rfl⟩ := hx
  have h1 := getStatusValue_nonneg item.status
  have h2 := one_le_itemCriticalityWeight item
  positivity

theorem weightedSum_le_maxPossibleSum (l : List AnalysisResultItem) :
    weightedSum l ≤ maxPossibleSum l := by
  induction l with
  | nil => simp [weightedSum, maxPossibleSum]
  | cons x t ih =>
      simp only [weightedSum, maxPossibleSum, List.map_cons, List.sum_cons] at *
      have h1 := getStatusValue_le_100 x.status
      have h2 := one_le_itemCriticalityWeight x
      have h3 : getStatusValue x.status * itemCriticalityWeight x
          ≤ 100 * itemCriticalityWeight x := by
        apply mul_le_mul_of_nonneg_right h1
        omega
      omega

theorem round_rat_mono {a b : ℚ} (h : a ≤ b) : round a ≤ round b := by
  rw [round_eq, round_eq]
  exact Int.floor_le_floor (by linarith)

theorem round_rat_100 : round (100 : ℚ) = 100 := by
  rw [show (100 : ℚ) = ((100 : ℤ) : ℚ) by norm_num]
  exact round_intCast 100

theorem applicableOf_def (items : List AnalysisResultItem) :
    items.filter (fun item => item.status ≠ RequirementStatus.NA) = applicableOf items := rfl

theorem weightedSum_def (l : List AnalysisResultItem) :
    (l.map (fun item => getStatusValue item.status * itemCriticalityWeight item)).sum
      = weightedSum l := rfl

theorem maxPossibleSum_def (l : List AnalysisResultItem) :
    (l.map (fun item => 100 * itemCriticalityWeight item)).sum = maxPossibleSum l := rfl

/-- Normal form of the score: 0 on an empty applicable list, otherwise
`round(weightedSum / maxPossibleSum * 100)`. -/
theorem calculateScore_eq_form (items : List AnalysisResultItem) :
    calculateScoreFromItems items =
      if applicableOf items = [] then 0
      else round (((weightedSum (applicableOf items) : ℚ)
        / (maxPossibleSum (applicableOf items) : ℚ)) * 100) := by
  simp only [calculateScoreFromItems, applicableOf_def, weightedSum_def, maxPossibleSum_def]
  cases h : applicableOf items with
  | nil => simp
  | cons x t =>
      have hpos : 0 < maxPossibleSum (x :: t) := maxPossibleSum_pos _ (by simp)
      rw [if_neg (show ¬((x :: t : List AnalysisResultItem).isEmpty = true) by simp),
        if_pos hpos,
        if_neg (show ¬((x :: t : List AnalysisResultItem) = []) by simp)]

theorem score_nonneg_of_ne_nil (l : List AnalysisResultItem) (h : l ≠ []) :
    0 ≤ round (((weightedSum l : ℚ) / (maxPossibleSum l : ℚ)) * 100) := by
  have hm := maxPossibleSum_pos l h
  have hmq : (0 : ℚ) < (maxPossibleSum l : ℚ) := by exact_mod_cast hm
  have hw : (0 : ℚ) ≤ (weightedSum l : ℚ) := by exact_mod_cast weightedSum_nonneg l
  have h0 : (0 : ℚ) ≤ ((weightedSum l : ℚ) / (maxPossibleSum l : ℚ)) * 100 := by
    apply mul_nonneg _ (by norm_num)
    exact div_nonneg hw (le_of_lt hmq)
  have := round_rat_mono h0
  simpa using this

theorem score_le_100_of_ne_nil (l : List AnalysisResultItem) (h : l ≠ []) :
    round (((weightedSum l : ℚ) / (maxPossibleSum l : ℚ)) * 100) ≤ 100 := by
  have hm := maxPossibleSum_pos l h
  have hmq : (0 : ℚ) < (maxPossibleSum l : ℚ) := by exact_mod_cast hm
  have hwm : (weightedSum l : ℚ) ≤ (maxPossibleSum l : ℚ) := by
    exact_mod_cast weightedSum_le_maxPossibleSum l
  have h1 : ((weightedSum l : ℚ) / (maxPossibleSum l : ℚ)) * 100 ≤ 100 := by
    have hdiv : (weightedSum l : ℚ) / (maxPossibleSum l : ℚ) ≤ 1 := by
      rw [div_le_one hmq]
      exact hwm
    nlinarith
  have := round_rat_mono h1
  rw [round_rat_100] at this
  exact this

/-! ### Theorems for the claims on scoring -/

/-- C1: for every list of analysis items, `calculateScoreFromItems` returns
`round(100 × Σ(statusValue × weight) / Σ(100 × weight))` over exactly the
items whose status is not NA, with status values COMPLIANT=100, IMPLICIT=70,
PARTIAL=30, ABSENT=0, criticality weights CRITICAL=3, MAJOR=2, MINOR=1, and
weight 1 when the requirement id is unknown to the catalog or its criticality
is missing; the result is 0 when the denominator is 0 (every item NA, or the
list empty).  Stated as equality with the spec-side `specScoreFromItems`. -/
theorem calculateScoreFromItems_matches_spec (items : List AnalysisResultItem) :
    calculateScoreFromItems items = specScoreFromItems items := by
  rw [calculateScore_eq_form]
  have hw : ∀ item : AnalysisResultItem,
      100 * specItemWeight item = 100 * itemCriticalityWeight item := by
    intro item; rw [itemCriticalityWeight_eq_specItemWeight]
  have hv : ∀ item : AnalysisResultItem,
      STATUS_VALUES item.status * specItemWeight item
        = getStatusValue item.status * itemCriticalityWeight item := by
    intro item; rw [itemCriticalityWeight_eq_specItemWeight]; rfl
  simp only [specScoreFromItems, hw, hv, applicableOf_def, weightedSum_def, maxPossibleSum_def]
  cases h : applicableOf items with
  | nil => simp [maxPossibleSum]
  | cons x t =>
      have hpos : 0 < maxPossibleSum (x :: t) := maxPossibleSum_pos _ (by simp)
      rw [if_neg (show ¬((x :: t : List AnalysisResultItem) = []) by simp),
        if_neg (show ¬(maxPossibleSum (x :: t) = 0) by omega)]
      congr 1
      ring

/-- C8: appending an item whose status is NA leaves the computed score
unchanged — NA items contribute to neither numerator nor denominator. -/
theorem calculateScore_append_na (items : List AnalysisResultItem)
    (rid cm : String) (fc : Option String) :
    calculateScoreFromItems (items ++ [⟨rid, RequirementStatus.NA, cm, fc⟩])
      = calculateScoreFromItems items := by
  unfold calculateScoreFromItems
  simp [List.filter_append]

/-- C7: the score is always in [0,100], and it is monotonically non-decreasing
in any single item's status value (for non-NA statuses) holding all other
items and statuses fixed: raising one item's status value cannot lower the
score. -/
theorem calculateScore_bounds_and_monotone :
    (∀ items : List AnalysisResultItem,
        0 ≤ calculateScoreFromItems items ∧ calculateScoreFromItems items ≤ 100)
    ∧ (∀ (pre post : List AnalysisResultItem) (item : AnalysisResultItem)
          (s1 s2 : RequirementStatus),
        s1 ≠ RequirementStatus.NA → s2 ≠ RequirementStatus.NA →
        getStatusValue s1 ≤ getStatusValue s2 →
        calculateScoreFromItems (pre ++ { item with status := s1 } :: post)
          ≤ calculateScoreFromItems (pre ++ { item with status := s2 } :: post)) := by
  constructor
  · intro items
    rw [calculateScore_eq_form]
    by_cases h : applicableOf items = []
    · rw [if_pos h]; omega
    · rw [if_neg h]
      exact ⟨score_nonneg_of_ne_nil _ h, score_le_100_of_ne_nil _ h⟩
  · intro pre post item s1 s2 h1 h2 hle
    rw [calculateScore_eq_form, calculateScore_eq_form]
    have hfil : ∀ s : RequirementStatus, s ≠ RequirementStatus.NA →
        applicableOf (pre ++ { item with status := s } :: post)
          = applicableOf pre ++ { item with status := s } :: applicableOf post := by
      intro s hs
      simp only [applicableOf, List.filter_append, List.filter_cons]
      simp [hs]
    rw [hfil s1 h1, hfil s2 h2]
    have hne : ∀ s : RequirementStatus,
        applicableOf pre ++ { item with status := s } :: applicableOf post ≠ [] := by
      intro s
      simp
    rw [if_neg (hne s1), if_neg (hne s2)]
    have hwt : ∀ s : RequirementStatus,
        itemCriticalityWeight { item with status := s } = itemCriticalityWeight item := by
      intro s; rfl
    have hmsame : maxPossibleSum (applicableOf pre ++ { item with status := s1 } :: applicableOf post)
        = maxPossibleSum (applicableOf pre ++ { item with status := s2 } :: applicableOf post) := by
      simp only [maxPossibleSum, List.map_append, List.sum_append, List.map_cons,
        List.sum_cons, hwt]
    have hwsum : weightedSum (applicableOf pre ++ { item with status := s1 } :: applicableOf post)
        ≤ weightedSum (applicableOf pre ++ { item with status := s2 } :: applicableOf post) := by
      simp only [weightedSum, List.map_append, List.sum_append, List.map_cons,
        List.sum_cons, hwt]
      have hwpos := one_le_itemCriticalityWeight item
      have : getStatusValue s1 * itemCriticalityWeight item
          ≤ getStatusValue s2 * itemCriticalityWeight item := by
        apply mul_le_mul_of_nonneg_right hle
        omega
      omega
    rw [hmsame]
    apply round_rat_mono
    have hm := maxPossibleSum_pos _ (hne s2)
    have hmq : (0 : ℚ) < ((maxPossibleSum (applicableOf pre ++ { item with status := s2 } :: applicableOf post)) : ℚ) := by
      exact_mod_cast hm
    have hwq : ((weightedSum (applicableOf pre ++ { item with status := s1 } :: applicableOf post)) : ℚ)
        ≤ ((weightedSum (applicableOf pre ++ { item with status := s2 } :: applicableOf post)) : ℚ) := by
      exact_mod_cast hwsum
    exact mul_le_mul_of_nonneg_right ((div_le_div_iff_of_pos_right hmq).mpr hwq) (by norm_num)

/-! ### Helper lemmas: the critical-requirement clamp -/

theorem clampCriticalItem_of_hit (item : AnalysisResultItem)
    (h : item.requirementId ∈ CRITICAL_REQUIREMENT_IDS ∧ item.status = RequirementStatus.IMPLICIT) :
    clampCriticalItem item =
      { item with
        status := RequirementStatus.PARTIAL,
        comment := "⚠️ EXIGENCE CRITIQUE : " ++ item.comment ++ "\n\n"
          ++ criticalRequirementNote (requirementDisplayName item.requirementId) } := by
  unfold clampCriticalItem
  rw [if_pos h]

theorem clampCriticalItem_of_miss (item : AnalysisResultItem)
    (h : ¬(item.requirementId ∈ CRITICAL_REQUIREMENT_IDS ∧ item.status = RequirementStatus.IMPLICIT)) :
    clampCriticalItem item = item := by
  unfold clampCriticalItem
  rw [if_neg h]

theorem clampCriticalItem_status_ne_implicit (item : AnalysisResultItem)
    (h : item.requirementId ∈ CRITICAL_REQUIREMENT_IDS) :
    (clampCriticalItem item).status ≠ RequirementStatus.IMPLICIT := by
  unfold clampCriticalItem
  by_cases hc : item.requirementId ∈ CRITICAL_REQUIREMENT_IDS ∧ item.status = RequirementStatus.IMPLICIT
  · rw [if_pos hc]
    simp
  · rw [if_neg hc]
    intro hst
    exact hc ⟨h, hst⟩

theorem clampCriticalItem_idem (item : AnalysisResultItem) :
    clampCriticalItem (clampCriticalItem item) = clampCriticalItem item := by
  by_cases hc : item.requirementId ∈ CRITICAL_REQUIREMENT_IDS ∧ item.status = RequirementStatus.IMPLICIT
  · rw [clampCriticalItem_of_hit item hc]
    apply clampCriticalItem_of_miss
    simp
  · rw [clampCriticalItem_of_miss item hc, clampCriticalItem_of_miss item hc]

theorem clampCriticalItem_frame (item : AnalysisResultItem) :
    (clampCriticalItem item).requirementId = item.requirementId
      ∧ (clampCriticalItem item).foundClause = item.foundClause := by
  by_cases hc : item.requirementId ∈ CRITICAL_REQUIREMENT_IDS ∧ item.status = RequirementStatus.IMPLICIT
  · rw [clampCriticalItem_of_hit item hc]
    exact ⟨rfl, rfl⟩
  · rw [clampCriticalItem_of_miss item hc]
    exact ⟨rfl, rfl⟩

theorem validateCriticalRequirements_items (a : ContractAnalysis) :
    (validateCriticalRequirements a).items = a.items.map clampCriticalItem := rfl

/-! ### Theorems for the claims on the clamp and the transformer -/

/-- C2: the critical-requirement clamp rewrites every item whose id is in the
fixed never-IMPLICIT set {I.7, I.10, II.4, II.10} and whose status is
IMPLICIT to PARTIAL, prepending the fixed warning and appending the note
naming the requirement to its comment; it leaves every other item unchanged;
and afterwards no item with an id in that set has status IMPLICIT. -/
theorem validateCriticalRequirements_clamps (a : ContractAnalysis) :
    List.Forall₂ (fun old new =>
        (old.requirementId ∈ CRITICAL_REQUIREMENT_IDS ∧ old.status = RequirementStatus.IMPLICIT →
          new.requirementId = old.requirementId
            ∧ new.status = RequirementStatus.PARTIAL
            ∧ new.foundClause = old.foundClause
            ∧ new.comment = "⚠️ EXIGENCE CRITIQUE : " ++ old.comment ++ "\n\n"
                ++ criticalRequirementNote (requirementDisplayName old.requirementId))
        ∧ (¬(old.requirementId ∈ CRITICAL_REQUIREMENT_IDS ∧ old.status = RequirementStatus.IMPLICIT) →
          new = old))
      a.items (validateCriticalRequirements a).items
    ∧ ∀ item ∈ (validateCriticalRequirements a).items,
        item.requirementId ∈ CRITICAL_REQUIREMENT_IDS → item.status ≠ RequirementStatus.IMPLICIT := by
  constructor
  · rw [validateCriticalRequirements_items, List.forall₂_map_right_iff]
    rw [List.forall₂_same]
    intro item _
    constructor
    · intro hc
      rw [clampCriticalItem_of_hit item hc]
      exact ⟨rfl, rfl, rfl, rfl⟩
    · intro hc
      exact clampCriticalItem_of_miss item hc
  · rw [validateCriticalRequirements_items]
    intro item hmem hid
    simp only [List.mem_map] at hmem
    obtain ⟨old, _, rfl⟩ := hmem
    have hold : old.requirementId ∈ CRITICAL_REQUIREMENT_IDS := by
      have := (clampCriticalItem_frame old).1
      rw [this] at hid
      exact hid
    exact clampCriticalItem_status_ne_implicit old hold

/-- C9: applying the critical-requirement clamp twice yields the same result
as applying it once. -/
theorem validateCriticalRequirements_idem (a : ContractAnalysis) :
    validateCriticalRequirements (validateCriticalRequirements a)
      = validateCriticalRequirements a := by
  unfold validateCriticalRequirements
  simp only [List.map_map]
  congr 1
  apply List.map_congr_left
  intro item _
  exact clampCriticalItem_idem item

/-- C10: the clamp changes at most the status and comment of the clamped
items — the items list keeps its length and order, each item's
`requirementId` and `foundClause` are preserved, and the analysis's
`fileName`, `date`, `score`, `generalClauses`, `executiveSummary` and
`recommendedClauses` are unchanged. -/
theorem validateCriticalRequirements_frame (a : ContractAnalysis) :
    (validateCriticalRequirements a).fileName = a.fileName
    ∧ (validateCriticalRequirements a).date = a.date
    ∧ (validateCriticalRequirements a).score = a.score
    ∧ (validateCriticalRequirements a).generalClauses = a.generalClauses
    ∧ (validateCriticalRequirements a).executiveSummary = a.executiveSummary
    ∧ (validateCriticalRequirements a).recommendedClauses = a.recommendedClauses
    ∧ (validateCriticalRequirements a).items.length = a.items.length
    ∧ List.Forall₂ (fun old new =>
        new.requirementId = old.requirementId ∧ new.foundClause = old.foundClause)
      a.items (validateCriticalRequirements a).items := by
  refine ⟨rfl, rfl, rfl, rfl, rfl, rfl, ?_, ?_⟩
  · rw [validateCriticalRequirements_items, List.length_map]
  · rw [validateCriticalRequirements_items, List.forall₂_map_right_iff, List.forall₂_same]
    intro item _
    exact clampCriticalItem_frame item

/-- C3: the overall score reported by `transformToFrontendFormat` is the
minimum of the analysis's model-asserted score and the score recomputed from
its items by the weighted scoring algorithm (conservative minimum rule; in
particular a model-asserted 90 against a recomputed 60 reports 60). -/
theorem transformToFrontendFormat_overallScore (a : ContractAnalysis) :
    (transformToFrontendFormat a).overallScore
      = min a.score (calculateScoreFromItems a.items) := rfl


/-! ### Theorems for the claims on the parser's failure mode -/

/-- C5: `parseAIResponse` fails if and only if both the strict parse of the
extracted candidate (with numeric score and list-shaped items) fails and the
recovery pass extracts zero items; the error is then always the fixed
formatting message (which suggests the contract may have been too long), and
this is the parser's only failure mode. -/
theorem parseAIResponse_failure_iff :
    ∀ today fileName responseText : String,
      ((parseAIResponse today fileName responseText).toOption = none ↔
        (strictParseAnalysis today fileName (extractJsonString responseText.data) = none
          ∧ recoverItemsFromTruncatedJson (extractJsonString responseText.data) = []))
      ∧ ((parseAIResponse today fileName responseText).toOption = none →
          parseAIResponse today fileName responseText = .error formattingErrorMessage) := by
  intro today fileName responseText
  simp only [parseAIResponse]
  cases hs : strictParseAnalysis today fileName (extractJsonString responseText.data) with
  | some a => simp [Except.toOption]
  | none =>
      cases hr : recoverItemsFromTruncatedJson (extractJsonString responseText.data) with
      | nil => simp [Except.toOption]
      | cons x t => simp [Except.toOption]

theorem parseAIResponse_failure_iff_witness :
    parseAIResponse "2025-01-01" "contrat.pdf" "pas de JSON ici"
      = .error formattingErrorMessage :=
  (parseAIResponse_failure_iff "2025-01-01" "contrat.pdf" "pas de JSON ici").2 (by decide)

set_option maxRecDepth 100000

/-- C4 counterexample: on `truncatedResponseSample` — a payload truncated
mid-array where exactly one complete item object precedes the truncation
point — the parser recovers two items, not one: the partially truncated
second item is recovered too, because its required fields are complete
before the cut and a brace inside its unfinished foundClause string keeps
the match inside the brace-sliced candidate.  This refutes "the items are
exactly the complete item objects preceding the truncation point and none
beyond it" as stated. -/
theorem parseAIResponse_truncation_recovers_incomplete_item :
    (parseAIResponse "2025-01-01" "contrat.pdf" truncatedResponseSample).toOption.map
        (fun r => (r.1.items, r.2.1, r.2.2))
      = some ([⟨"I.1", RequirementStatus.COMPLIANT, "a", none⟩,
               ⟨"I.2", RequirementStatus.ABSENT, "b", none⟩], true, 2) := by
  decide


/-! ### Helper lemmas: characters, literals and captures -/

theorem plainChar_ne {c : Char} (h : plainChar c = true) :
    c ≠ '"' ∧ c ≠ '\\' ∧ c ≠ '{' ∧ c ≠ '}' ∧ c ≠ '`' := by
  simp only [plainChar, Bool.and_eq_true, Bool.not_eq_true', beq_eq_false_iff_ne] at h
  exact ⟨h.1.1.1.1, h.1.1.1.2, h.1.1.2, h.1.2, h.2⟩

theorem jsSkipWs_cons {c : Char} (cs : List Char) (h : jsIsWs c = false) :
    jsSkipWs (c :: cs) = c :: cs := by
  simp [jsSkipWs, h]

theorem jsSkipWs_ws {c : Char} (cs : List Char) (h : jsIsWs c = true) :
    jsSkipWs (c :: cs) = jsSkipWs cs := by
  simp [jsSkipWs, h]

theorem dropLit_append (lit rest : List Char) : dropLit lit (lit ++ rest) = some rest := by
  induction lit with
  | nil => simp [dropLit]
  | cons l ls ih => simp [dropLit, ih]

theorem dropLit_head_ne {l : Char} (ls : List Char) {c : Char} (cs : List Char) (h : c ≠ l) :
    dropLit (l :: ls) (c :: cs) = none := by
  simp [dropLit, h]

theorem captureToQuote_plain (s : List Char) (h : s.all plainChar = true) (rest : List Char) :
    captureToQuote (s ++ '"' :: rest) = some (s, rest) := by
  induction s with
  | nil => simp [captureToQuote]
  | cons c t ih =>
      simp only [List.all_cons, Bool.and_eq_true] at h
      have hc := (plainChar_ne h.1).1
      rw [List.cons_append, captureToQuote.eq_def]
      simp only []
      rw [ih h.2]
      rfl

theorem parseStringBody_plain (s : List Char) (h : s.all plainChar = true) (rest : List Char) :
    parseStringBody (s ++ '"' :: rest) = some (s, rest) := by
  induction s with
  | nil => simp [parseStringBody]
  | cons c t ih =>
      simp only [List.all_cons, Bool.and_eq_true] at h
      have hq := (plainChar_ne h.1).1
      have hb := (plainChar_ne h.1).2.1
      rw [List.cons_append, parseStringBody.eq_def]
      split
      · simp_all
      · simp_all
      · rename_i heq
        simp only [List.cons.injEq] at heq
        rw [← heq.1, ← heq.2, ih h.2]
        rfl
      · simp_all


/-! ### Helper lemmas: digits and numbers -/

theorem digitChar_isDigit {d : Nat} (h : d < 10) : isDigitChar (digitChar d) = true := by
  interval_cases d <;> decide

theorem digitChar_val {d : Nat} (h : d < 10) : (digitChar d).toNat - '0'.toNat = d := by
  interval_cases d <;> decide

theorem natDigitsChars_all_digit (n : Nat) : (natDigitsChars n).all isDigitChar = true := by
  induction n using Nat.strongRecOn with
  | _ n ih =>
    rw [natDigitsChars]
    by_cases h : n < 10
    · simp [h, digitChar_isDigit h]
    · simp only [if_neg h, List.all_append]
      rw [ih (n / 10) (by omega)]
      simp [digitChar_isDigit (Nat.mod_lt n (by norm_num))]

theorem natDigitsChars_head (n : Nat) :
    ∃ c t, natDigitsChars n = c :: t ∧ isDigitChar c = true := by
  induction n using Nat.strongRecOn with
  | _ n ih =>
    by_cases h : n < 10
    · exact ⟨digitChar n, [], by rw [natDigitsChars]; simp [h], digitChar_isDigit h⟩
    · obtain ⟨c, t, hct, hc⟩ := ih (n / 10) (by omega)
      refine ⟨c, t ++ [digitChar (n % 10)], ?_, hc⟩
      rw [natDigitsChars]
      simp [h, hct]

theorem takeDigitRun_cons_no {c : Char} (cs : List Char) (h : isDigitChar c = false) :
    takeDigitRun (c :: cs) = ([], c :: cs) := by
  simp [takeDigitRun, h]

theorem takeDigitRun_append {ds : List Char} (hds : ds.all isDigitChar = true)
    {rest : List Char} (hrest : takeDigitRun rest = ([], rest)) :
    takeDigitRun (ds ++ rest) = (ds, rest) := by
  induction ds with
  | nil => simpa using hrest
  | cons c t ih =>
      simp only [List.all_cons, Bool.and_eq_true] at hds
      simp [takeDigitRun, hds.1, ih hds.2]

theorem foldl_digits_natDigitsChars (n : Nat) :
    (natDigitsChars n).foldl (fun acc c => acc * 10 + (c.toNat - 48)) 0 = n := by
  induction n using Nat.strongRecOn with
  | _ n ih =>
    rw [natDigitsChars]
    by_cases h : n < 10
    · simp only [if_pos h, List.foldl_cons, List.foldl_nil]
      simpa using digitChar_val h
    · simp only [if_neg h, List.foldl_append, List.foldl_cons, List.foldl_nil]
      rw [ih (n / 10) (by omega)]
      have := digitChar_val (Nat.mod_lt n (show 0 < 10 by norm_num) : n % 10 < 10)
      simp only [show ('0').toNat = 48 from rfl] at this
      rw [this]
      omega

theorem digitsVal_natDigitsChars (n : Nat) : digitsVal (natDigitsChars n) = (n : Int) := by
  simp [digitsVal, foldl_digits_natDigitsChars]

theorem isDigitChar_props {c : Char} (h : isDigitChar c = true) :
    c ≠ '-' ∧ c ≠ 'n' ∧ c ≠ 't' ∧ c ≠ 'f' ∧ c ≠ '"' ∧ c ≠ '[' ∧ c ≠ '{' ∧ c ≠ '}' ∧ c ≠ '`'
      ∧ jsIsWs c = false := by
  refine ⟨?_, ?_, ?_, ?_, ?_, ?_, ?_, ?_, ?_, ?_⟩
  · exact fun he => absurd (he ▸ h) (by decide)
  · exact fun he => absurd (he ▸ h) (by decide)
  · exact fun he => absurd (he ▸ h) (by decide)
  · exact fun he => absurd (he ▸ h) (by decide)
  · exact fun he => absurd (he ▸ h) (by decide)
  · exact fun he => absurd (he ▸ h) (by decide)
  · exact fun he => absurd (he ▸ h) (by decide)
  · exact fun he => absurd (he ▸ h) (by decide)
  · exact fun he => absurd (he ▸ h) (by decide)
  · simp only [jsIsWs, Bool.or_eq_false_iff, beq_eq_false_iff_ne]
    refine ⟨⟨⟨?_, ?_⟩, ?_⟩, ?_⟩ <;> exact fun he => absurd (he ▸ h) (by decide)

theorem parseNumberToken_digits (n : Nat) {rest : List Char}
    (hrest : takeDigitRun rest = ([], rest)) :
    parseNumberToken (natDigitsChars n ++ rest) = some ((n : Int), rest) := by
  obtain ⟨c, t, hct, hc⟩ := natDigitsChars_head n
  have hall := natDigitsChars_all_digit n
  have htake : takeDigitRun (natDigitsChars n ++ rest) = (natDigitsChars n, rest) :=
    takeDigitRun_append hall hrest
  have hminus := (isDigitChar_props hc).1
  rw [hct, List.cons_append, parseNumberToken.eq_def]
  split
  · rename_i r heq
    simp only [List.cons.injEq] at heq
    exact absurd heq.1 hminus
  · rw [← List.cons_append, ← hct, htake]
    cases hd : natDigitsChars n with
    | nil => simp [hd] at hct
    | cons a b =>
        simp only []
        rw [← hd, digitsVal_natDigitsChars]


/-! ### Helper lemmas: unescaping is the identity on plain content -/

theorem replaceEscQuote_no_bs (cs : List Char) (h : ∀ c ∈ cs, c ≠ '\\') :
    replaceEscQuote cs = cs := by
  induction cs with
  | nil => rfl
  | cons c t ih =>
      have hc : c ≠ '\\' := h c (by simp)
      rw [replaceEscQuote.eq_def]
      split
      · simp_all
      · rename_i heq
        simp only [List.cons.injEq] at heq
        rw [← heq.1, ← heq.2, ih (fun x hx => h x (by simp [hx]))]
      · simp_all

theorem replaceEscN_no_bs (cs : List Char) (h : ∀ c ∈ cs, c ≠ '\\') :
    replaceEscN cs = cs := by
  induction cs with
  | nil => rfl
  | cons c t ih =>
      have hc : c ≠ '\\' := h c (by simp)
      rw [replaceEscN.eq_def]
      split
      · simp_all
      · rename_i heq
        simp only [List.cons.injEq] at heq
        rw [← heq.1, ← heq.2, ih (fun x hx => h x (by simp [hx]))]
      · simp_all

theorem plainStr_forall {s : String} (h : plainStr s = true) :
    ∀ c ∈ s.data, plainChar c = true := by
  simpa [plainStr, List.all_eq_true] using h

theorem unescapeField_plain (s : String) (h : plainStr s = true) :
    unescapeField s.data = s := by
  have hbs : ∀ c ∈ s.data, c ≠ '\\' := fun c hc => (plainChar_ne (plainStr_forall h c hc)).2.1
  unfold unescapeField
  rw [replaceEscQuote_no_bs _ hbs, replaceEscN_no_bs _ hbs]


/-! ### Helper lemmas: render decompositions -/

theorem chunk_reqid : "\x7b\"requirementId\":\"".data
    = '{' :: '"' :: ("requirementId".data ++ ['"', ':', '"']) := rfl

theorem chunk_status : "\",\"status\":\"".data
    = '"' :: ',' :: '"' :: ("status".data ++ ['"', ':', '"']) := rfl

theorem chunk_comment : "\",\"comment\":\"".data
    = '"' :: ',' :: '"' :: ("comment".data ++ ['"', ':', '"']) := rfl

theorem chunk_quote : "\"".data = ['"'] := rfl

theorem chunk_fc : ",\"foundClause\":\"".data
    = ',' :: '"' :: ("foundClause".data ++ ['"', ':', '"']) := rfl

theorem chunk_close : "\x7d".data = ['}'] := rfl

theorem chunk_score : "\x7b\"score\":".data = '{' :: '"' :: ("score".data ++ ['"', ':']) := rfl

theorem chunk_items : ",\"items\":[".data = ',' :: '"' :: ("items".data ++ ['"', ':', '[']) := rfl

theorem chunk_end : "]\x7d".data = [']', '}'] := rfl

/-- The rendered item without a foundClause, in parse-ready right-nested form. -/
theorem renderItemJson_decomp_none (it : AnalysisResultItem) (hfc : it.foundClause = none)
    (rest : List Char) :
    renderItemJson it ++ rest
      = '{' :: ('"' :: ("requirementId".data ++ ('"' :: (':' :: ('"' :: (it.requirementId.data ++ ('"' :: (',' :: ('"' :: ("status".data ++ ('"' :: (':' :: ('"' :: ((statusLiteral it.status).data ++ ('"' :: (',' :: ('"' :: ("comment".data ++ ('"' :: (':' :: ('"' :: (it.comment.data ++ ('"' :: ('}' :: (rest))))))))))))))))))))))))) := by
  simp [renderItemJson, hfc, chunk_reqid, chunk_status, chunk_comment, chunk_quote, chunk_close]

/-- The rendered item with a foundClause, in parse-ready right-nested form. -/
theorem renderItemJson_decomp_some (it : AnalysisResultItem) (fc : String)
    (hfc : it.foundClause = some fc) (rest : List Char) :
    renderItemJson it ++ rest
      = '{' :: ('"' :: ("requirementId".data ++ ('"' :: (':' :: ('"' :: (it.requirementId.data ++ ('"' :: (',' :: ('"' :: ("status".data ++ ('"' :: (':' :: ('"' :: ((statusLiteral it.status).data ++ ('"' :: (',' :: ('"' :: ("comment".data ++ ('"' :: (':' :: ('"' :: (it.comment.data ++ ('"' :: (',' :: ('"' :: ("foundClause".data ++ ('"' :: (':' :: ('"' :: (fc.data ++ ('"' :: ('}' :: (rest))))))))))))))))))))))))))))))))) := by
  simp [renderItemJson, hfc, chunk_reqid, chunk_status, chunk_comment, chunk_quote, chunk_fc,
    chunk_close]


/-! ### Helper lemmas: member steps of the strict parser -/

theorem member_requirementId_full (f : Nat) (v : List Char) (hv : v.all plainChar = true)
    (after : List Char) :
    parseJsonMembers (f + 2) ('"' :: ("requirementId".data ++ ('"' :: (':' :: ('"' :: (v ++ ('"' :: after)))))))
      = (match jsSkipWs after with
         | ',' :: r4 =>
             (match parseJsonMembers (f + 1) (jsSkipWs r4) with
              | some (ms, r5) => some (("requirementId", Json.str (String.mk v)) :: ms, r5)
              | none => none)
         | '}' :: r4 => some ([("requirementId", Json.str (String.mk v))], r4)
         | _ => none) := by
  have h0 : parseJsonMembers (f + 2) ('"' :: ("requirementId".data ++ ('"' :: (':' :: ('"' :: (v ++ ('"' :: after)))))))
      = (match Option.map (fun p => (Json.str (String.mk p.1), p.2))
            (parseStringBody (v ++ ('"' :: after))) with
         | none => none
         | some (jv, r3) =>
             match jsSkipWs r3 with
             | ',' :: r4 =>
                 (match parseJsonMembers (f + 1) (jsSkipWs r4) with
                  | some (ms, r5) => some (("requirementId", jv) :: ms, r5)
                  | none => none)
             | '}' :: r4 => some ([("requirementId", jv)], r4)
             | _ => none) := rfl
  rw [h0, parseStringBody_plain v hv after]
  rfl

theorem member_status_full (f : Nat) (v : List Char) (hv : v.all plainChar = true)
    (after : List Char) :
    parseJsonMembers (f + 2) ('"' :: ("status".data ++ ('"' :: (':' :: ('"' :: (v ++ ('"' :: after)))))))
      = (match jsSkipWs after with
         | ',' :: r4 =>
             (match parseJsonMembers (f + 1) (jsSkipWs r4) with
              | some (ms, r5) => some (("status", Json.str (String.mk v)) :: ms, r5)
              | none => none)
         | '}' :: r4 => some ([("status", Json.str (String.mk v))], r4)
         | _ => none) := by
  have h0 : parseJsonMembers (f + 2) ('"' :: ("status".data ++ ('"' :: (':' :: ('"' :: (v ++ ('"' :: after)))))))
      = (match Option.map (fun p => (Json.str (String.mk p.1), p.2))
            (parseStringBody (v ++ ('"' :: after))) with
         | none => none
         | some (jv, r3) =>
             match jsSkipWs r3 with
             | ',' :: r4 =>
                 (match parseJsonMembers (f + 1) (jsSkipWs r4) with
                  | some (ms, r5) => some (("status", jv) :: ms, r5)
                  | none => none)
             | '}' :: r4 => some ([("status", jv)], r4)
             | _ => none) := rfl
  rw [h0, parseStringBody_plain v hv after]
  rfl

theorem member_comment_full (f : Nat) (v : List Char) (hv : v.all plainChar = true)
    (after : List Char) :
    parseJsonMembers (f + 2) ('"' :: ("comment".data ++ ('"' :: (':' :: ('"' :: (v ++ ('"' :: after)))))))
      = (match jsSkipWs after with
         | ',' :: r4 =>
             (match parseJsonMembers (f + 1) (jsSkipWs r4) with
              | some (ms, r5) => some (("comment", Json.str (String.mk v)) :: ms, r5)
              | none => none)
         | '}' :: r4 => some ([("comment", Json.str (String.mk v))], r4)
         | _ => none) := by
  have h0 : parseJsonMembers (f + 2) ('"' :: ("comment".data ++ ('"' :: (':' :: ('"' :: (v ++ ('"' :: after)))))))
      = (match Option.map (fun p => (Json.str (String.mk p.1), p.2))
            (parseStringBody (v ++ ('"' :: after))) with
         | none => none
         | some (jv, r3) =>
             match jsSkipWs r3 with
             | ',' :: r4 =>
                 (match parseJsonMembers (f + 1) (jsSkipWs r4) with
                  | some (ms, r5) => some (("comment", jv) :: ms, r5)
                  | none => none)
             | '}' :: r4 => some ([("comment", jv)], r4)
             | _ => none) := rfl
  rw [h0, parseStringBody_plain v hv after]
  rfl

theorem member_foundClause_full (f : Nat) (v : List Char) (hv : v.all plainChar = true)
    (after : List Char) :
    parseJsonMembers (f + 2) ('"' :: ("foundClause".data ++ ('"' :: (':' :: ('"' :: (v ++ ('"' :: after)))))))
      = (match jsSkipWs after with
         | ',' :: r4 =>
             (match parseJsonMembers (f + 1) (jsSkipWs r4) with
              | some (ms, r5) => some (("foundClause", Json.str (String.mk v)) :: ms, r5)
              | none => none)
         | '}' :: r4 => some ([("foundClause", Json.str (String.mk v))], r4)
         | _ => none) := by
  have h0 : parseJsonMembers (f + 2) ('"' :: ("foundClause".data ++ ('"' :: (':' :: ('"' :: (v ++ ('"' :: after)))))))
      = (match Option.map (fun p => (Json.str (String.mk p.1), p.2))
            (parseStringBody (v ++ ('"' :: after))) with
         | none => none
         | some (jv, r3) =>
             match jsSkipWs r3 with
             | ',' :: r4 =>
                 (match parseJsonMembers (f + 1) (jsSkipWs r4) with
                  | some (ms, r5) => some (("foundClause", jv) :: ms, r5)
                  | none => none)
             | '}' :: r4 => some ([("foundClause", jv)], r4)
             | _ => none) := rfl
  rw [h0, parseStringBody_plain v hv after]
  rfl


/-! ### Helper lemmas: status literal and number dispatch -/

theorem statusLiteral_plain (st : RequirementStatus) :
    ((statusLiteral st).data).all plainChar = true := by
  cases st <;> decide

theorem parseJsonValue_digit_head (f : Nat) {c : Char} (t : List Char) (hc : isDigitChar c = true) :
    parseJsonValue (f + 1) (c :: t)
      = Option.map (fun p => (Json.num p.1, p.2)) (parseNumberToken (c :: t)) := by
  obtain ⟨hm, hn, ht', hf', hq, hlb, hob, hrb, hbt, hws⟩ := isDigitChar_props hc
  have h0 : parseJsonValue (f + 1) (c :: t)
      = (match jsSkipWs (c :: t) with
         | 'n' :: 'u' :: 'l' :: 'l' :: r => some (Json.null, r)
         | 't' :: 'r' :: 'u' :: 'e' :: r => some (Json.bool true, r)
         | 'f' :: 'a' :: 'l' :: 's' :: 'e' :: r => some (Json.bool false, r)
         | '"' :: r => Option.map (fun p => (Json.str (String.mk p.1), p.2)) (parseStringBody r)
         | '[' :: r =>
             (match jsSkipWs r with
              | ']' :: r2 => some (Json.arr [], r2)
              | r2 => Option.map (fun p => (Json.arr p.1, p.2)) (parseJsonElems f r2))
         | '{' :: r =>
             (match jsSkipWs r with
              | '}' :: r2 => some (Json.obj [], r2)
              | r2 => Option.map (fun p => (Json.obj p.1, p.2)) (parseJsonMembers f r2))
         | r => Option.map (fun p => (Json.num p.1, p.2)) (parseNumberToken r)) := rfl
  rw [h0, jsSkipWs_cons t hws]
  simp [hn, ht', hf', hq, hlb, hob]


/-! ### Helper lemmas: specialised member steps -/

theorem member_requirementId_next (f : Nat) (v : List Char) (hv : v.all plainChar = true)
    (rest2 : List Char) :
    parseJsonMembers (f + 2)
        ('"' :: ("requirementId".data ++ ('"' :: (':' :: ('"' :: (v ++ ('"' :: (',' :: ('"' :: rest2)))))))))
      = (match parseJsonMembers (f + 1) ('"' :: rest2) with
         | some (ms, r5) => some (("requirementId", Json.str (String.mk v)) :: ms, r5)
         | none => none) := by
  rw [member_requirementId_full f v hv (',' :: ('"' :: rest2))]
  rfl

theorem member_status_next (f : Nat) (v : List Char) (hv : v.all plainChar = true)
    (rest2 : List Char) :
    parseJsonMembers (f + 2)
        ('"' :: ("status".data ++ ('"' :: (':' :: ('"' :: (v ++ ('"' :: (',' :: ('"' :: rest2)))))))))
      = (match parseJsonMembers (f + 1) ('"' :: rest2) with
         | some (ms, r5) => some (("status", Json.str (String.mk v)) :: ms, r5)
         | none => none) := by
  rw [member_status_full f v hv (',' :: ('"' :: rest2))]
  rfl

theorem member_comment_next (f : Nat) (v : List Char) (hv : v.all plainChar = true)
    (rest2 : List Char) :
    parseJsonMembers (f + 2)
        ('"' :: ("comment".data ++ ('"' :: (':' :: ('"' :: (v ++ ('"' :: (',' :: ('"' :: rest2)))))))))
      = (match parseJsonMembers (f + 1) ('"' :: rest2) with
         | some (ms, r5) => some (("comment", Json.str (String.mk v)) :: ms, r5)
         | none => none) := by
  rw [member_comment_full f v hv (',' :: ('"' :: rest2))]
  rfl

theorem member_comment_last (f : Nat) (v : List Char) (hv : v.all plainChar = true)
    (rest2 : List Char) :
    parseJsonMembers (f + 2)
        ('"' :: ("comment".data ++ ('"' :: (':' :: ('"' :: (v ++ ('"' :: ('}' :: rest2))))))))
      = some ([("comment", Json.str (String.mk v))], rest2) := by
  rw [member_comment_full f v hv ('}' :: rest2)]
  rfl

theorem member_foundClause_last (f : Nat) (v : List Char) (hv : v.all plainChar = true)
    (rest2 : List Char) :
    parseJsonMembers (f + 2)
        ('"' :: ("foundClause".data ++ ('"' :: (':' :: ('"' :: (v ++ ('"' :: ('}' :: rest2))))))))
      = some ([("foundClause", Json.str (String.mk v))], rest2) := by
  rw [member_foundClause_full f v hv ('}' :: rest2)]
  rfl

theorem parseJsonValue_obj_step (f : Nat) (x : List Char) :
    parseJsonValue (f + 1) ('{' :: ('"' :: x))
      = Option.map (fun p => (Json.obj p.1, p.2)) (parseJsonMembers f ('"' :: x)) := rfl

theorem parseJsonValue_arr_step (f : Nat) (x : List Char) :
    parseJsonValue (f + 1) ('[' :: ('{' :: x))
      = Option.map (fun p => (Json.arr p.1, p.2)) (parseJsonElems f ('{' :: x)) := rfl

theorem parseJsonValue_arr_empty (f : Nat) (x : List Char) :
    parseJsonValue (f + 1) ('[' :: (']' :: x)) = some (Json.arr [], x) := rfl

theorem parseJsonElems_step (f : Nat) (cs : List Char) :
    parseJsonElems (f + 1) cs
      = (match parseJsonValue f cs with
         | none => none
         | some (v, r) =>
             match jsSkipWs r with
             | ',' :: r2 =>
                 (match parseJsonElems f (jsSkipWs r2) with
                  | some (vs, r3) => some (v :: vs, r3)
                  | none => none)
             | ']' :: r2 => some ([v], r2)
             | _ => none) := rfl

theorem string_mk_data (s : String) : String.mk s.data = s := rfl

/-- The item round-trip: the strict parser recovers `jsonOfItem` from a
rendered well-formed item. -/
theorem parseJsonValue_renderItem (it : AnalysisResultItem) (hwf : wellFormedItem it = true)
    (f : Nat) (rest : List Char) :
    parseJsonValue (f + 8) (renderItemJson it ++ rest) = some (jsonOfItem it, rest) := by
  simp only [wellFormedItem, Bool.and_eq_true] at hwf
  obtain ⟨⟨⟨hrid, hridne⟩, hcm⟩, hfcOK⟩ := hwf
  have h1 : it.requirementId.data.all plainChar = true := hrid
  have h2 : it.comment.data.all plainChar = true := hcm
  cases hfc : it.foundClause with
  | none =>
      rw [renderItemJson_decomp_none it hfc rest]
      rw [show f + 8 = (f + 7) + 1 from rfl, parseJsonValue_obj_step]
      rw [show f + 7 = (f + 5) + 2 from rfl, member_requirementId_next (f + 5) _ h1]
      rw [show (f + 5) + 1 = (f + 4) + 2 from rfl,
        member_status_next (f + 4) _ (statusLiteral_plain it.status)]
      rw [show (f + 4) + 1 = (f + 3) + 2 from rfl, member_comment_last (f + 3) _ h2]
      simp [jsonOfItem, hfc, string_mk_data]
  | some fc =>
      rw [hfc] at hfcOK
      simp only [Bool.and_eq_true, Bool.not_eq_true', beq_eq_false_iff_ne] at hfcOK
      have h3 : fc.data.all plainChar = true := hfcOK.1
      rw [renderItemJson_decomp_some it fc hfc rest]
      rw [show f + 8 = (f + 7) + 1 from rfl, parseJsonValue_obj_step]
      rw [show f + 7 = (f + 5) + 2 from rfl, member_requirementId_next (f + 5) _ h1]
      rw [show (f + 5) + 1 = (f + 4) + 2 from rfl,
        member_status_next (f + 4) _ (statusLiteral_plain it.status)]
      rw [show (f + 4) + 1 = (f + 3) + 2 from rfl, member_comment_next (f + 3) _ h2]
      rw [show (f + 3) + 1 = (f + 2) + 2 from rfl, member_foundClause_last (f + 2) _ h3]
      simp [jsonOfItem, hfc, string_mk_data]


/-! ### Helper lemmas: the items array round-trip -/

theorem renderItemJson_head (it : AnalysisResultItem) :
    ∃ t, renderItemJson it = '{' :: t := by
  cases hfc : it.foundClause with
  | none =>
      have h := renderItemJson_decomp_none it hfc []
      rw [List.append_nil] at h
      exact ⟨_, h⟩
  | some fc =>
      have h := renderItemJson_decomp_some it fc hfc []
      rw [List.append_nil] at h
      exact ⟨_, h⟩

theorem renderItemsJoin_cons_head (it2 : AnalysisResultItem) (its2 : List AnalysisResultItem) :
    ∃ t, renderItemsJoin (it2 :: its2) = '{' :: t := by
  obtain ⟨t, ht⟩ := renderItemJson_head it2
  cases its2 with
  | nil => exact ⟨t, ht⟩
  | cons a b =>
      refine ⟨t ++ (',' :: renderItemsJoin (a :: b)), ?_⟩
      show renderItemJson it2 ++ (',' :: renderItemsJoin (a :: b)) = _
      rw [ht]
      rfl

theorem parseJsonElems_item_last (f : Nat) (it : AnalysisResultItem)
    (hwf : wellFormedItem it = true) (rest : List Char) :
    parseJsonElems ((f + 8) + 1) (renderItemJson it ++ (']' :: rest))
      = some ([jsonOfItem it], rest) := by
  rw [parseJsonElems_step, parseJsonValue_renderItem it hwf f]
  rfl

theorem parseJsonElems_item_next (f : Nat) (it : AnalysisResultItem)
    (hwf : wellFormedItem it = true) (t : List Char) :
    parseJsonElems ((f + 8) + 1) (renderItemJson it ++ (',' :: ('{' :: t)))
      = (match parseJsonElems (f + 8) ('{' :: t) with
         | some (vs, r3) => some (jsonOfItem it :: vs, r3)
         | none => none) := by
  rw [parseJsonElems_step, parseJsonValue_renderItem it hwf f]
  rfl

/-- The items-array round-trip: the strict parser recovers the mapped item
values from the comma-joined render of a nonempty well-formed item list. -/
theorem parseJsonElems_renderItemsJoin (items : List AnalysisResultItem)
    (hwf : items.all wellFormedItem = true) (hne : items ≠ []) (f : Nat) (rest : List Char) :
    parseJsonElems (f + 9 * items.length) (renderItemsJoin items ++ (']' :: rest))
      = some (items.map jsonOfItem, rest) := by
  induction items generalizing f rest with
  | nil => exact absurd rfl hne
  | cons it its ih =>
      simp only [List.all_cons, List.all_nil, Bool.and_eq_true] at hwf
      cases its with
      | nil => exact parseJsonElems_item_last f it hwf.1 rest
      | cons it2 its2 =>
          obtain ⟨t, ht⟩ := renderItemsJoin_cons_head it2 its2
          have harg : renderItemsJoin (it :: it2 :: its2) ++ (']' :: rest)
              = renderItemJson it ++ (',' :: ('{' :: (t ++ (']' :: rest)))) := by
            show (renderItemJson it ++ (',' :: renderItemsJoin (it2 :: its2))) ++ (']' :: rest) = _
            rw [ht]
            simp [List.append_assoc]
          rw [harg]
          have hfuel : f + 9 * (it :: it2 :: its2).length = ((f + 9 * its2.length + 9) + 8) + 1 := by
            simp only [List.length_cons]
            omega
          rw [hfuel]
          rw [parseJsonElems_item_next (f + 9 * its2.length + 9) it hwf.1 (t ++ (']' :: rest))]
          have harg2 : ('{' : Char) :: (t ++ (']' :: rest))
              = renderItemsJoin (it2 :: its2) ++ (']' :: rest) := by
            rw [ht]
            rfl
          rw [harg2]
          have hfuel2 : (f + 9 * its2.length + 9) + 8 = (f + 8) + 9 * (it2 :: its2).length := by
            simp only [List.length_cons]
            omega
          rw [hfuel2]
          rw [ih hwf.2 (List.cons_ne_nil it2 its2) (f + 8) rest]
          rfl


/-! ### Helper lemmas: the payload round-trip -/

theorem member_score_next (f : Nat) (n : Nat) (rest2 : List Char) :
    parseJsonMembers (f + 2)
        ('"' :: ("score".data ++ ('"' :: (':' :: (natDigitsChars n ++ (',' :: ('"' :: rest2)))))))
      = (match parseJsonMembers (f + 1) ('"' :: rest2) with
         | some (ms, r5) => some (("score", Json.num (n : Int)) :: ms, r5)
         | none => none) := by
  have h0 : parseJsonMembers (f + 2)
        ('"' :: ("score".data ++ ('"' :: (':' :: (natDigitsChars n ++ (',' :: ('"' :: rest2)))))))
      = (match parseJsonValue (f + 1) (jsSkipWs (natDigitsChars n ++ (',' :: ('"' :: rest2)))) with
         | none => none
         | some (jv, r3) =>
             match jsSkipWs r3 with
             | ',' :: r4 =>
                 (match parseJsonMembers (f + 1) (jsSkipWs r4) with
                  | some (ms, r5) => some (("score", jv) :: ms, r5)
                  | none => none)
             | '}' :: r4 => some ([("score", jv)], r4)
             | _ => none) := rfl
  obtain ⟨c, t, hct, hc⟩ := natDigitsChars_head n
  have hws := (isDigitChar_props hc).2.2.2.2.2.2.2.2.2
  rw [h0, hct, List.cons_append, jsSkipWs_cons _ hws, parseJsonValue_digit_head f _ hc,
    ← List.cons_append, ← hct,
    parseNumberToken_digits n (takeDigitRun_cons_no ('"' :: rest2) (by decide))]
  rfl

theorem member_items_last (g : Nat) (y : List Char) :
    parseJsonMembers ((g + 1) + 1)
        ('"' :: ("items".data ++ ('"' :: (':' :: ('[' :: ('{' :: y))))))
      = (match Option.map (fun p => (Json.arr p.1, p.2)) (parseJsonElems g ('{' :: y)) with
         | none => none
         | some (jv, r3) =>
             match jsSkipWs r3 with
             | ',' :: r4 =>
                 (match parseJsonMembers (g + 1) (jsSkipWs r4) with
                  | some (ms, r5) => some (("items", jv) :: ms, r5)
                  | none => none)
             | '}' :: r4 => some ([("items", jv)], r4)
             | _ => none) := rfl

theorem member_items_empty_last (g : Nat) (rest : List Char) :
    parseJsonMembers ((g + 1) + 1)
        ('"' :: ("items".data ++ ('"' :: (':' :: ('[' :: (']' :: ('}' :: rest)))))))
      = some ([("items", Json.arr [])], rest) := rfl

theorem renderPayload_decomp (score : Nat) (items : List AnalysisResultItem) (rest : List Char) :
    renderPayload score items ++ rest
      = '{' :: ('"' :: ("score".data ++ ('"' :: (':' :: (natDigitsChars score ++ (',' :: ('"' :: ("items".data ++ ('"' :: (':' :: ('[' :: (renderItemsJoin items ++ (']' :: ('}' :: rest)))))))))))))) := by
  simp [renderPayload, chunk_score, chunk_items, chunk_end]

/-- The payload round-trip at the `JSON.parse` level. -/
theorem parseJsonValue_renderPayload (score : Nat) (items : List AnalysisResultItem)
    (hwf : items.all wellFormedItem = true) (f : Nat) (rest : List Char) :
    parseJsonValue (f + 9 * items.length + 4) (renderPayload score items ++ rest)
      = some (jsonOfPayload score items, rest) := by
  rw [renderPayload_decomp score items rest]
  cases items with
  | nil =>
      rw [show renderItemsJoin ([] : List AnalysisResultItem) = [] from rfl, List.nil_append]
      rw [show f + 9 * ([] : List AnalysisResultItem).length + 4 = ((f + 9 * ([] : List AnalysisResultItem).length + 3)) + 1 from rfl, parseJsonValue_obj_step]
      rw [show f + 9 * ([] : List AnalysisResultItem).length + 3 = (f + 9 * ([] : List AnalysisResultItem).length + 1) + 2 from rfl, member_score_next (f + 9 * ([] : List AnalysisResultItem).length + 1) score]
      rw [show (f + 9 * ([] : List AnalysisResultItem).length + 1) + 1 = ((f + 9 * ([] : List AnalysisResultItem).length) + 1) + 1 from rfl, member_items_empty_last]
      rfl
  | cons it its =>
      obtain ⟨t, ht⟩ := renderItemsJoin_cons_head it its
      rw [ht, show ('{' :: t : List Char) ++ (']' :: ('}' :: rest)) = '{' :: (t ++ (']' :: ('}' :: rest))) from rfl]
      rw [show f + 9 * (it :: its).length + 4 = ((f + 9 * (it :: its).length + 3)) + 1 from rfl, parseJsonValue_obj_step]
      rw [show f + 9 * (it :: its).length + 3 = (f + 9 * (it :: its).length + 1) + 2 from rfl, member_score_next (f + 9 * (it :: its).length + 1) score]
      rw [show (f + 9 * (it :: its).length + 1) + 1 = ((f + 9 * (it :: its).length) + 1) + 1 from rfl, member_items_last (f + 9 * (it :: its).length)]
      rw [show ('{' : Char) :: (t ++ (']' :: ('}' :: rest))) = ('{' :: t) ++ (']' :: ('}' :: rest)) from rfl,
        ← ht,
        parseJsonElems_renderItemsJoin (it :: its) hwf (List.cons_ne_nil it its) f ('}' :: rest)]
      rfl

theorem renderItemJson_length_ge (it : AnalysisResultItem) : 10 ≤ (renderItemJson it).length := by
  have e1 : ("\x7b\"requirementId\":\"".data).length = 18 := rfl
  simp only [renderItemJson, List.length_append, e1]
  omega

theorem renderItemsJoin_length_ge (items : List AnalysisResultItem) :
    10 * items.length ≤ (renderItemsJoin items).length := by
  induction items with
  | nil => simp [renderItemsJoin]
  | cons it its ih =>
      cases its with
      | nil =>
          have h1 := renderItemJson_length_ge it
          simp only [renderItemsJoin, List.length_cons, List.length_nil]
          omega
      | cons b bs =>
          have h1 := renderItemJson_length_ge it
          have h3 : renderItemsJoin (it :: b :: bs)
              = renderItemJson it ++ (',' :: renderItemsJoin (b :: bs)) := rfl
          rw [h3]
          simp only [List.length_append, List.length_cons] at *
          omega

theorem renderPayload_fuel_le (score : Nat) (items : List AnalysisResultItem) :
    9 * items.length + 4 ≤ 2 * (renderPayload score items).length + 2 := by
  have h := renderItemsJoin_length_ge items
  have e1 : ("\x7b\"score\":".data).length = 9 := rfl
  simp only [renderPayload, List.length_append, e1]
  omega

/-- The payload round-trip at the `runJsonParse` level. -/
theorem runJsonParse_renderPayload (score : Nat) (items : List AnalysisResultItem)
    (hwf : items.all wellFormedItem = true) :
    runJsonParse (renderPayload score items) = some (jsonOfPayload score items) := by
  have hle := renderPayload_fuel_le score items
  have hkey := parseJsonValue_renderPayload score items hwf
    (2 * (renderPayload score items).length + 2 - (9 * items.length + 4)) []
  rw [List.append_nil] at hkey
  have hfe : 2 * (renderPayload score items).length + 2 - (9 * items.length + 4)
      + 9 * items.length + 4 = 2 * (renderPayload score items).length + 2 := by omega
  rw [hfe] at hkey
  have hsw : jsSkipWs ([] : List Char) = [] := rfl
  simp [runJsonParse, hkey, hsw]

/-- The payload round-trip at the strict-analysis level. -/
theorem strictParseAnalysis_renderPayload (today fileName : String) (score : Nat)
    (items : List AnalysisResultItem) (hwf : items.all wellFormedItem = true) :
    strictParseAnalysis today fileName (renderPayload score items)
      = some { fileName := fileName,
               date := today,
               score := max 0 (min 100 ((score : Nat) : Int)),
               items := (items.map jsonOfItem).map jsonToItem,
               generalClauses := [],
               executiveSummary := "Analyse terminée.",
               recommendedClauses := [] } := by
  unfold strictParseAnalysis
  rw [runJsonParse_renderPayload score items hwf]
  rfl


/-! ### Helper lemmas: `extractJsonString` on the rendered payload -/

theorem all_mem_btk {p : Char → Bool} (xs : List Char) (h : xs.all p = true)
    (hp : p '`' = false) : '`' ∉ xs := by
  intro hm
  have := List.all_eq_true.mp h _ hm
  rw [hp] at this
  exact Bool.false_ne_true this

theorem natDigitsChars_no_btk (n : Nat) : '`' ∉ natDigitsChars n :=
  all_mem_btk _ (natDigitsChars_all_digit n) (by decide)

theorem renderItemJson_no_btk (it : AnalysisResultItem) (hwf : wellFormedItem it = true) :
    '`' ∉ renderItemJson it := by
  simp only [wellFormedItem, Bool.and_eq_true] at hwf
  obtain ⟨⟨⟨hrid, _⟩, hcm⟩, hfcOK⟩ := hwf
  have hr : '`' ∉ it.requirementId.data :=
    fun hmm => absurd (List.all_eq_true.mp hrid _ hmm) (by decide)
  have hc2 : '`' ∉ it.comment.data :=
    fun hmm => absurd (List.all_eq_true.mp hcm _ hmm) (by decide)
  have hst : '`' ∉ (statusLiteral it.status).data := by
    cases it.status <;> decide
  intro hm
  cases hfc : it.foundClause with
  | none =>
      rw [renderItemJson, hfc] at hm
      simp [List.mem_append, hr, hc2, hst] at hm
  | some fc =>
      rw [hfc] at hfcOK
      simp only [Bool.and_eq_true] at hfcOK
      have hfcd : '`' ∉ fc.data :=
        fun hmm => absurd (List.all_eq_true.mp hfcOK.1 _ hmm) (by decide)
      rw [renderItemJson, hfc] at hm
      simp [List.mem_append, hr, hc2, hst, hfcd] at hm

theorem renderItemsJoin_no_btk (items : List AnalysisResultItem)
    (hwf : items.all wellFormedItem = true) : '`' ∉ renderItemsJoin items := by
  induction items with
  | nil => exact fun hm => absurd hm (by decide)
  | cons it its ih =>
      simp only [List.all_cons, Bool.and_eq_true] at hwf
      cases its with
      | nil => exact renderItemJson_no_btk it hwf.1
      | cons b bs =>
          intro hm
          have hshape : renderItemsJoin (it :: b :: bs)
              = renderItemJson it ++ (',' :: renderItemsJoin (b :: bs)) := rfl
          have h1 := renderItemJson_no_btk it hwf.1
          have h2 := ih hwf.2
          rw [hshape] at hm
          simp [List.mem_append, h1, h2] at hm

theorem renderPayload_no_btk (score : Nat) (items : List AnalysisResultItem)
    (hwf : items.all wellFormedItem = true) : '`' ∉ renderPayload score items := by
  intro hm
  have hd : '`' ∉ natDigitsChars score := natDigitsChars_no_btk score
  have hj : '`' ∉ renderItemsJoin items := renderItemsJoin_no_btk items hwf
  rw [renderPayload] at hm
  simp [List.mem_append, hd, hj] at hm

theorem splitAtFirstOccur_no_btk (cs : List Char) (h : '`' ∉ cs) :
    splitAtFirstOccur fenceMarker cs = none := by
  induction cs with
  | nil => rfl
  | cons c cs ih =>
      have h1 : ('`' : Char) ≠ c := fun he => h (he ▸ List.mem_cons_self c cs)
      have h2 : '`' ∉ cs := fun hm => h (List.mem_cons_of_mem c hm)
      have hb : (('`' : Char) == c) = false := beq_eq_false_iff_ne.mpr h1
      have hpf : (fenceMarker.isPrefixOf (c :: cs)) = false := by
        rw [show fenceMarker = '`' :: ('`' :: ('`' :: [])) from rfl]
        simp [List.isPrefixOf, hb]
      simp [splitAtFirstOccur, hpf, ih h2]

theorem extractFencedBlock_no_btk (cs : List Char) (h : '`' ∉ cs) :
    extractFencedBlock cs = none := by
  simp [extractFencedBlock, splitAtFirstOccur_no_btk cs h]

theorem dropLit_btk_none (t cs : List Char) (h : '`' ∉ cs) :
    dropLit ('`' :: t) cs = none := by
  cases cs with
  | nil => rfl
  | cons c cs' =>
      have h1 : c ≠ '`' := fun he => h (he ▸ List.mem_cons_self c cs')
      simp [dropLit, h1]

theorem isPrefixOf_btk_false (t cs : List Char) (h : '`' ∉ cs) :
    (('`' :: t).isPrefixOf cs) = false := by
  cases cs with
  | nil => rfl
  | cons c cs' =>
      have h1 : ('`' : Char) ≠ c := fun he => h (he ▸ List.mem_cons_self c cs')
      have hb : (('`' : Char) == c) = false := beq_eq_false_iff_ne.mpr h1
      simp [List.isPrefixOf, hb]

theorem stripFencesFallback_no_btk (cs : List Char) (h : '`' ∉ cs) :
    stripFencesFallback cs = cs := by
  have h1 : dropLit "```json".data cs = none := dropLit_btk_none _ cs h
  have h2 : dropLit fenceMarker cs = none := dropLit_btk_none _ cs h
  have h3 : (fenceMarker.reverse.isPrefixOf cs.reverse) = false := by
    have hr : '`' ∉ cs.reverse := by simpa using h
    exact isPrefixOf_btk_false _ _ hr
  simp [stripFencesFallback, h1, h2, h3]

theorem objectSlice_id (cs x y : List Char) (h1 : cs = '{' :: x) (h2 : cs = y ++ ['}']) :
    objectSlice cs = cs := by
  subst h1
  simp only [objectSlice]
  have hdw : ('{' :: x).dropWhile (fun c => c ≠ '{') = '{' :: x := by
    simp [List.dropWhile]
  rw [hdw]
  have hrv : ('{' :: x).reverse.dropWhile (fun c => c ≠ '}') = ('{' :: x).reverse := by
    rw [h2]
    simp [List.dropWhile]
  rw [hrv, List.reverse_reverse]
  simp

theorem renderPayload_head_ex (score : Nat) (items : List AnalysisResultItem) :
    ∃ x, renderPayload score items = '{' :: x := by
  have h := renderPayload_decomp score items []
  rw [List.append_nil] at h
  exact ⟨_, h⟩

theorem renderPayload_last_ex (score : Nat) (items : List AnalysisResultItem) :
    ∃ y, renderPayload score items = y ++ ['}'] := by
  refine ⟨"\x7b\"score\":".data ++ natDigitsChars score ++ ",\"items\":[".data
    ++ renderItemsJoin items ++ [']'], ?_⟩
  simp [renderPayload, chunk_end, List.append_assoc]

theorem objectSlice_renderPayload (score : Nat) (items : List AnalysisResultItem) :
    objectSlice (renderPayload score items) = renderPayload score items := by
  obtain ⟨x, hx⟩ := renderPayload_head_ex score items
  obtain ⟨y, hy⟩ := renderPayload_last_ex score items
  exact objectSlice_id _ x y hx hy

/-- `extractJsonString` is the identity on a bare rendered payload. -/
theorem extractJsonString_renderPayload (score : Nat) (items : List AnalysisResultItem)
    (hwf : items.all wellFormedItem = true) :
    extractJsonString (renderPayload score items) = renderPayload score items := by
  have hnb := renderPayload_no_btk score items hwf
  simp only [extractJsonString, extractFencedBlock_no_btk _ hnb,
    stripFencesFallback_no_btk _ hnb]
  exact objectSlice_renderPayload score items


/-! ### Helper lemmas: the fenced wrapping -/

theorem splitAtFirstOccur_at_marker (before X : List Char) (h : '`' ∉ before) :
    splitAtFirstOccur fenceMarker (before ++ ('`' :: ('`' :: ('`' :: X)))) = some (before, X) := by
  induction before with
  | nil =>
      rw [List.nil_append]
      simp only [splitAtFirstOccur]
      rw [if_pos (show (fenceMarker.isPrefixOf ('`' :: ('`' :: ('`' :: X)))) = true by
        simp [show fenceMarker = '`' :: ('`' :: ('`' :: [])) from rfl, List.isPrefixOf])]
      rfl
  | cons c cs ih =>
      have h1 : ('`' : Char) ≠ c := fun he => h (he ▸ List.mem_cons_self c cs)
      have h2 : '`' ∉ cs := fun hm => h (List.mem_cons_of_mem c hm)
      have hb : (('`' : Char) == c) = false := beq_eq_false_iff_ne.mpr h1
      have hpf : (fenceMarker.isPrefixOf (c :: (cs ++ ('`' :: ('`' :: ('`' :: X)))))) = false := by
        rw [show fenceMarker = '`' :: ('`' :: ('`' :: [])) from rfl]
        simp [List.isPrefixOf, hb]
      rw [show ((c :: cs : List Char) ++ ('`' :: ('`' :: ('`' :: X))))
          = c :: (cs ++ ('`' :: ('`' :: ('`' :: X)))) from rfl]
      simp only [splitAtFirstOccur, hpf, ih h2]
      rfl

theorem wrapFenced_decomp (before inner after : List Char) :
    wrapFenced before inner after
      = before ++ ('`' :: ('`' :: ('`' :: ("json\n".data
          ++ (inner ++ ('\n' :: ('`' :: ('`' :: ('`' :: after))))))))) := by
  simp [wrapFenced, show fenceMarker = '`' :: ('`' :: ('`' :: [])) from rfl, List.append_assoc]

theorem jsSkipWs_append_head {c : Char} (x z : List Char) (h : jsIsWs c = false) :
    jsSkipWs ((c :: x) ++ z) = (c :: x) ++ z := by
  rw [show ((c :: x) ++ z) = c :: (x ++ z) from rfl, jsSkipWs_cons _ h]

theorem dropTrailingWs_nl (y : List Char) :
    dropTrailingWs ((y ++ ['}']) ++ ['\n']) = y ++ ['}'] := by
  simp [dropTrailingWs, List.dropWhile, jsIsWs]

/-- The fenced-block extractor recovers the rendered payload from a fenced
wrapping with backtick-free commentary before the block. -/
theorem extractFencedBlock_wrap (before after : List Char) (score : Nat)
    (items : List AnalysisResultItem) (hwf : items.all wellFormedItem = true)
    (hb : '`' ∉ before) :
    extractFencedBlock (wrapFenced before (renderPayload score items) after)
      = some (renderPayload score items) := by
  obtain ⟨x, hx⟩ := renderPayload_head_ex score items
  obtain ⟨y, hy⟩ := renderPayload_last_ex score items
  have hnb := renderPayload_no_btk score items hwf
  have h1 : splitAtFirstOccur fenceMarker (wrapFenced before (renderPayload score items) after)
      = some (before, "json\n".data ++ (renderPayload score items
          ++ ('\n' :: ('`' :: ('`' :: ('`' :: after)))))) := by
    rw [wrapFenced_decomp]
    exact splitAtFirstOccur_at_marker before _ hb
  have hdl : dropLit "json".data ("json\n".data ++ (renderPayload score items
        ++ ('\n' :: ('`' :: ('`' :: ('`' :: after))))))
      = some ('\n' :: (renderPayload score items
          ++ ('\n' :: ('`' :: ('`' :: ('`' :: after)))))) := rfl
  have hsw1 : jsSkipWs ('\n' :: (renderPayload score items
        ++ ('\n' :: ('`' :: ('`' :: ('`' :: after))))))
      = jsSkipWs (renderPayload score items ++ ('\n' :: ('`' :: ('`' :: ('`' :: after))))) :=
    jsSkipWs_ws _ (by decide)
  have hsw2 : jsSkipWs (renderPayload score items ++ ('\n' :: ('`' :: ('`' :: ('`' :: after)))))
      = renderPayload score items ++ ('\n' :: ('`' :: ('`' :: ('`' :: after)))) := by
    rw [hx]
    exact jsSkipWs_append_head x _ (by decide)
  have hb2 : '`' ∉ renderPayload score items ++ ['\n'] := by
    intro hm
    rcases List.mem_append.mp hm with hm1 | hm1
    · exact hnb hm1
    · exact absurd hm1 (by decide)
  have hsplit2 : splitAtFirstOccur fenceMarker (renderPayload score items
        ++ ('\n' :: ('`' :: ('`' :: ('`' :: after)))))
      = some (renderPayload score items ++ ['\n'], after) := by
    have h := splitAtFirstOccur_at_marker (renderPayload score items ++ ['\n']) after hb2
    rw [List.append_assoc] at h
    simpa using h
  have hdtw : dropTrailingWs (renderPayload score items ++ ['\n'])
      = renderPayload score items := by
    rw [hy]
    exact dropTrailingWs_nl y
  simp only [extractFencedBlock, h1, hdl, hsw1, hsw2, hsplit2, hdtw]

/-- `extractJsonString` recovers the rendered payload from a fenced wrapping
with backtick-free surrounding commentary. -/
theorem extractJsonString_wrapFenced (before after : List Char) (score : Nat)
    (items : List AnalysisResultItem) (hwf : items.all wellFormedItem = true)
    (hb : '`' ∉ before) :
    extractJsonString (wrapFenced before (renderPayload score items) after)
      = renderPayload score items := by
  simp only [extractJsonString, extractFencedBlock_wrap before after score items hwf hb]
  exact objectSlice_renderPayload score items


/-- **C6.** For every well-formed JSON analysis payload — a numeric score and
an items array, presented either bare or wrapped in a fenced code block with
surrounding commentary — `parseAIResponse` succeeds on the strict path: it
returns `isPartial = false` and a `ContractAnalysis` whose item count equals
the payload's item count. -/
theorem parseAIResponse_roundtrip (today fileName : String) (score : Nat)
    (items : List AnalysisResultItem) (resp1 resp2 : String) (before after : List Char)
    (hwf : items.all wellFormedItem = true)
    (h1 : resp1.data = renderPayload score items)
    (h2 : resp2.data = wrapFenced before (renderPayload score items) after)
    (hb : '`' ∉ before) :
    (∃ a : ContractAnalysis, parseAIResponse today fileName resp1
        = .ok (a, false, a.items.length) ∧ a.items.length = items.length)
      ∧ (∃ a : ContractAnalysis, parseAIResponse today fileName resp2
          = .ok (a, false, a.items.length) ∧ a.items.length = items.length) := by
  constructor
  · refine ⟨{ fileName := fileName, date := today,
              score := max 0 (min 100 ((score : Nat) : Int)),
              items := (items.map jsonOfItem).map jsonToItem,
              generalClauses := [], executiveSummary := "Analyse terminée.",
              recommendedClauses := [] }, ?_, by simp⟩
    simp only [parseAIResponse, h1, extractJsonString_renderPayload score items hwf,
      strictParseAnalysis_renderPayload today fileName score items hwf]
  · refine ⟨{ fileName := fileName, date := today,
              score := max 0 (min 100 ((score : Nat) : Int)),
              items := (items.map jsonOfItem).map jsonToItem,
              generalClauses := [], executiveSummary := "Analyse terminée.",
              recommendedClauses := [] }, ?_, by simp⟩
    simp only [parseAIResponse, h2, extractJsonString_wrapFenced before after score items hwf hb,
      strictParseAnalysis_renderPayload today fileName score items hwf]

/-- Witness for C6 at a concrete one-item payload, bare and fenced. -/
theorem parseAIResponse_roundtrip_witness :
    (∃ a : ContractAnalysis, parseAIResponse "2025-01-01" "contrat.pdf"
        "\x7b\"score\":87,\"items\":[\x7b\"requirementId\":\"I.1\",\"status\":\"COMPLIANT\",\"comment\":\"ok\"\x7d]\x7d"
        = .ok (a, false, a.items.length)
        ∧ a.items.length
            = [({ requirementId := "I.1", status := .COMPLIANT, comment := "ok",
                  foundClause := none } : AnalysisResultItem)].length)
      ∧ (∃ a : ContractAnalysis, parseAIResponse "2025-01-01" "contrat.pdf"
          "Voici : ```json\n\x7b\"score\":87,\"items\":[\x7b\"requirementId\":\"I.1\",\"status\":\"COMPLIANT\",\"comment\":\"ok\"\x7d]\x7d\n``` Merci."
          = .ok (a, false, a.items.length)
          ∧ a.items.length
              = [({ requirementId := "I.1", status := .COMPLIANT, comment := "ok",
                    foundClause := none } : AnalysisResultItem)].length) :=
  parseAIResponse_roundtrip "2025-01-01" "contrat.pdf" 87
    [{ requirementId := "I.1", status := .COMPLIANT, comment := "ok", foundClause := none }]
    "\x7b\"score\":87,\"items\":[\x7b\"requirementId\":\"I.1\",\"status\":\"COMPLIANT\",\"comment\":\"ok\"\x7d]\x7d"
    "Voici : ```json\n\x7b\"score\":87,\"items\":[\x7b\"requirementId\":\"I.1\",\"status\":\"COMPLIANT\",\"comment\":\"ok\"\x7d]\x7d\n``` Merci."
    ("Voici : ".data) (" Merci.".data)
    (by decide)
    (by
      have h87 : natDigitsChars 87 = ['8', '7'] := by
        rw [natDigitsChars, natDigitsChars]
        decide
      simp only [renderPayload, h87, renderItemsJoin, renderItemJson]
      decide)
    (by
      have h87 : natDigitsChars 87 = ['8', '7'] := by
        rw [natDigitsChars, natDigitsChars]
        decide
      simp only [wrapFenced, fenceMarker, renderPayload, h87, renderItemsJoin, renderItemJson]
      decide)
    (by decide)


/-! ### Helper lemmas: the recovery scan on rendered items -/

theorem readStatusWord_literal (st : RequirementStatus) (rest : List Char) :
    readStatusWord ((statusLiteral st).data ++ ('"' :: rest)) = some (st, rest) := by
  cases st <;> rfl

theorem scanRecoverItems_step (g : Nat) (cs : List Char) :
    scanRecoverItems (g + 1) cs
      = (match matchItemAt cs with
         | some (caps, rest) =>
             { requirementId := String.mk caps.1,
               status := caps.2.1,
               comment := unescapeField caps.2.2,
               foundClause :=
                 match matchFoundClauseAt rest with
                 | some fcRaw =>
                     if unescapeField fcRaw = "" then none else some (unescapeField fcRaw)
                 | none => none } :: scanRecoverItems g rest
         | none =>
             match cs with
             | [] => []
             | _ :: cs2 => scanRecoverItems g cs2) := rfl

theorem scanRecoverItems_nil (g : Nat) : scanRecoverItems g [] = [] := by
  cases g <;> rfl

theorem matchItemAt_nil : matchItemAt [] = none := rfl

theorem matchItemAt_cons_ne (c : Char) (cs : List Char) (h : c ≠ '{') :
    matchItemAt (c :: cs) = none := by
  unfold matchItemAt
  split
  · rename_i r0 heq
    injection heq with h1 _
    exact absurd h1 h
  · rfl

theorem matchItemAt_header (cs : List Char) :
    matchItemAt ('{' :: ('"' :: ("score".data ++ cs))) = none := rfl

theorem matchFoundClauseAt_close (z : List Char) : matchFoundClauseAt ('}' :: z) = none := rfl

theorem matchItemAt_render_none (it : AnalysisResultItem) (hfc : it.foundClause = none)
    (hwf : wellFormedItem it = true) (z : List Char) :
    matchItemAt (renderItemJson it ++ z)
      = some ((it.requirementId.data, it.status, it.comment.data), '}' :: z) := by
  simp only [wellFormedItem, Bool.and_eq_true] at hwf
  obtain ⟨⟨⟨hrid, hridne⟩, hcm⟩, _⟩ := hwf
  have hridp : it.requirementId.data.all plainChar = true := hrid
  have hcmp : it.comment.data.all plainChar = true := hcm
  simp only [Bool.not_eq_true', beq_eq_false_iff_ne] at hridne
  have hridne' : it.requirementId.data ≠ [] := by
    intro h0
    apply hridne
    have h1 : it.requirementId = String.mk it.requirementId.data := rfl
    rw [h0] at h1
    exact h1
  rw [renderItemJson_decomp_none it hfc z]
  simp [matchItemAt, dropLit, jsSkipWs, jsIsWs, captureToQuote_plain, hridp, hcmp, hridne',
    readStatusWord_literal]

theorem matchItemAt_render_some (it : AnalysisResultItem) (fc : String)
    (hfc : it.foundClause = some fc) (hwf : wellFormedItem it = true) (z : List Char) :
    matchItemAt (renderItemJson it ++ z)
      = some ((it.requirementId.data, it.status, it.comment.data),
          ',' :: ('"' :: ("foundClause".data
            ++ ('"' :: (':' :: ('"' :: (fc.data ++ ('"' :: ('}' :: z))))))))) := by
  simp only [wellFormedItem, Bool.and_eq_true] at hwf
  obtain ⟨⟨⟨hrid, hridne⟩, hcm⟩, _⟩ := hwf
  have hridp : it.requirementId.data.all plainChar = true := hrid
  have hcmp : it.comment.data.all plainChar = true := hcm
  simp only [Bool.not_eq_true', beq_eq_false_iff_ne] at hridne
  have hridne' : it.requirementId.data ≠ [] := by
    intro h0
    apply hridne
    have h1 : it.requirementId = String.mk it.requirementId.data := rfl
    rw [h0] at h1
    exact h1
  rw [renderItemJson_decomp_some it fc hfc z]
  simp [matchItemAt, dropLit, jsSkipWs, jsIsWs, captureToQuote_plain, hridp, hcmp, hridne',
    readStatusWord_literal]

theorem matchFoundClauseAt_tail (fc : String) (hfcp : fc.data.all plainChar = true)
    (z : List Char) :
    matchFoundClauseAt (',' :: ('"' :: ("foundClause".data
        ++ ('"' :: (':' :: ('"' :: (fc.data ++ ('"' :: ('}' :: z)))))))))
      = some fc.data := by
  simp [matchFoundClauseAt, dropLit, jsSkipWs, jsIsWs, captureToQuote_plain, hfcp]


theorem matchItemAt_drop_none (P cs : List Char)
    (hP : P.all (fun c => !(c == '{')) = true)
    (i : Nat) (hi : i < P.length) : matchItemAt (P.drop i ++ cs) = none := by
  have hdrop : P.drop i = P.get ⟨i, hi⟩ :: P.drop (i + 1) := by
    rw [List.drop_eq_getElem_cons hi]
    simp
  rw [hdrop, show (P.get ⟨i, hi⟩ :: P.drop (i + 1)) ++ cs
      = P.get ⟨i, hi⟩ :: (P.drop (i + 1) ++ cs) from rfl]
  apply matchItemAt_cons_ne
  have hmem := List.get_mem P i hi
  have := List.all_eq_true.mp hP _ hmem
  simp only [Bool.not_eq_true', beq_eq_false_iff_ne] at this
  exact this

theorem scanRecoverItems_skip (P : List Char) (f : Nat) (cs : List Char)
    (h : ∀ i, i < P.length → matchItemAt (P.drop i ++ cs) = none) :
    scanRecoverItems (f + P.length) (P ++ cs) = scanRecoverItems f cs := by
  induction P generalizing f with
  | nil => simp
  | cons c P ih =>
      have h0 : matchItemAt (c :: (P ++ cs)) = none := by
        have := h 0 (by simp)
        simpa using this
      have hstep := scanRecoverItems_step (f + P.length) (c :: (P ++ cs))
      rw [show f + (c :: P).length = (f + P.length) + 1 from by simp only [List.length_cons]; omega,
        show ((c :: P) ++ cs) = c :: (P ++ cs) from rfl, hstep, h0]
      exact ih f (fun i hi => by
        have := h (i + 1) (by simpa using Nat.succ_lt_succ hi)
        simpa [List.drop] using this)


theorem scanRecoverItems_nonbrace (P : List Char)
    (hP : P.all (fun c => !(c == '{')) = true) (f : Nat) :
    scanRecoverItems (f + P.length) P = [] := by
  have h := scanRecoverItems_skip P f []
    (fun i hi => matchItemAt_drop_none P [] hP i hi)
  rw [List.append_nil] at h
  rw [h]
  exact scanRecoverItems_nil f

theorem all_of_plain_no_brace (xs : List Char) (h : xs.all plainChar = true) :
    xs.all (fun c => !(c == '{')) = true := by
  rw [List.all_eq_true] at h ⊢
  intro c hc
  have := (plainChar_ne (h c hc)).2.2.1
  simpa using this

theorem recovered_head_none (it : AnalysisResultItem) (hfc : it.foundClause = none)
    (hwf : wellFormedItem it = true) :
    ({ requirementId := String.mk it.requirementId.data,
       status := it.status,
       comment := unescapeField it.comment.data,
       foundClause := none } : AnalysisResultItem) = it := by
  simp only [wellFormedItem, Bool.and_eq_true] at hwf
  have hcm : plainStr it.comment = true := hwf.1.2
  rw [unescapeField_plain it.comment hcm]
  obtain ⟨a, b, c, d⟩ := it
  simp only at hfc
  rw [hfc]

theorem recovered_head_some (it : AnalysisResultItem) (fc : String)
    (hfc : it.foundClause = some fc) (hwf : wellFormedItem it = true) :
    ({ requirementId := String.mk it.requirementId.data,
       status := it.status,
       comment := unescapeField it.comment.data,
       foundClause := if unescapeField fc.data = "" then none
         else some (unescapeField fc.data) } : AnalysisResultItem) = it := by
  simp only [wellFormedItem, Bool.and_eq_true] at hwf
  have hcm : plainStr it.comment = true := hwf.1.2
  have hfcOK := hwf.2
  rw [hfc] at hfcOK
  have hfc2 : (plainStr fc && !(fc == "")) = true := hfcOK
  simp only [Bool.and_eq_true, Bool.not_eq_true', beq_eq_false_iff_ne] at hfc2
  rw [unescapeField_plain fc hfc2.1, if_neg hfc2.2, unescapeField_plain it.comment hcm]
  obtain ⟨a, b, c, d⟩ := it
  simp only at hfc
  rw [hfc]

theorem renderItemJson_length_some (it : AnalysisResultItem) (fc : String)
    (hfc : it.foundClause = some fc) :
    21 + fc.data.length ≤ (renderItemJson it).length := by
  have e16 : ((",\"foundClause\":\"" : String).data).length = 16 := rfl
  have e18 : (("\x7b\"requirementId\":\"" : String).data).length = 18 := rfl
  simp only [renderItemJson, hfc, List.length_append, e16, e18]
  omega

/-- The recovery scan over the comma-joined rendered items returns exactly
the rendered items, at any sufficiently large fuel of the stated shape. -/
theorem scanRecoverItems_join : ∀ (items : List AnalysisResultItem),
    items.all wellFormedItem = true →
    ∀ f : Nat,
      scanRecoverItems (f + (renderItemsJoin items).length + 1) (renderItemsJoin items)
        = items := by
  intro items
  induction items with
  | nil => exact fun _ f => scanRecoverItems_nil _
  | cons it its ih =>
      intro hwf f
      simp only [List.all_cons, Bool.and_eq_true] at hwf
      obtain ⟨hit, hits⟩ := hwf
      have hIlen := renderItemJson_length_ge it
      cases its with
      | nil =>
          have hshape : renderItemsJoin [it] = renderItemJson it ++ ([] : List Char) := by
            simp [renderItemsJoin]
          rw [hshape, scanRecoverItems_step]
          cases hfc : it.foundClause with
          | none =>
              rw [matchItemAt_render_none it hfc hit]
              simp only [matchFoundClauseAt_close]
              rw [show f + (renderItemJson it ++ ([] : List Char)).length
                  = (f + (renderItemJson it ++ ([] : List Char)).length
                      - (['}'] : List Char).length) + (['}'] : List Char).length from by
                simp only [List.length_append, List.length_nil, List.length_cons]
                omega]
              rw [show ('}' :: [] : List Char) = (['}'] : List Char) from rfl]
              rw [scanRecoverItems_nonbrace (['}'] : List Char) (by decide)]
              rw [recovered_head_none it hfc hit]
          | some fc =>
              have hfcOK := hit
              simp only [wellFormedItem, Bool.and_eq_true] at hfcOK
              have hfc3 := hfcOK.2
              rw [hfc] at hfc3
              have hfc2 : (plainStr fc && !(fc == "")) = true := hfc3
              simp only [Bool.and_eq_true] at hfc2
              have hfcp : fc.data.all plainChar = true := hfc2.1
              have hTlen := renderItemJson_length_some it fc hfc
              rw [matchItemAt_render_some it fc hfc hit]
              simp only [matchFoundClauseAt_tail fc hfcp]
              have hPshape : (',' :: ('"' :: ("foundClause".data
                  ++ ('"' :: (':' :: ('"' :: (fc.data ++ ('"' :: ('}' :: ([] : List Char))))))))))
                  = (',' :: ('"' :: ("foundClause".data
                      ++ ('"' :: (':' :: ('"' :: (fc.data ++ ('"' :: ('}' :: []))))))))) ++ ([] : List Char) := by
                simp
              rw [hPshape]
              have hPall : ((',' :: ('"' :: ("foundClause".data
                  ++ ('"' :: (':' :: ('"' :: (fc.data ++ ('"' :: ('}' :: []))))))))) : List Char).all
                    (fun c => !(c == '{')) = true := by
                simp only [List.all_cons, List.all_append, Bool.and_eq_true]
                refine ⟨by decide, by decide, by decide, by decide, by decide, by decide,
                  all_of_plain_no_brace fc.data hfcp, by decide⟩
              have hPlen : ((',' :: ('"' :: ("foundClause".data
                  ++ ('"' :: (':' :: ('"' :: (fc.data ++ ('"' :: ('}' :: []))))))))) : List Char).length
                  = 18 + fc.data.length := by
                have e11 : (("foundClause" : String).data).length = 11 := rfl
                simp only [List.length_cons, List.length_append, List.length_nil, e11]
                omega
              have hXlen : (renderItemJson it ++ ([] : List Char)).length
                  = (renderItemJson it).length := by simp
              rw [show f + (renderItemJson it ++ ([] : List Char)).length
                  = (f + (renderItemJson it ++ ([] : List Char)).length - (18 + fc.data.length))
                      + ((',' :: ('"' :: ("foundClause".data
                          ++ ('"' :: (':' :: ('"' :: (fc.data ++ ('"' :: ('}' :: []))))))))) : List Char).length from by
                rw [hPlen, hXlen]
                omega]
              rw [scanRecoverItems_skip _ _ _
                (fun i hi => matchItemAt_drop_none _ [] hPall i hi)]
              rw [scanRecoverItems_nil]
              rw [recovered_head_some it fc hfc hit]
      | cons b bs =>
          have hshape : renderItemsJoin (it :: b :: bs)
              = renderItemJson it ++ (',' :: renderItemsJoin (b :: bs)) := rfl
          rw [hshape, scanRecoverItems_step]
          have hLen : (renderItemJson it ++ (',' :: renderItemsJoin (b :: bs))).length
              = (renderItemJson it).length + (renderItemsJoin (b :: bs)).length + 1 := by
            simp only [List.length_append, List.length_cons]
            omega
          cases hfc : it.foundClause with
          | none =>
              rw [matchItemAt_render_none it hfc hit]
              simp only [matchFoundClauseAt_close]
              rw [show ('}' :: (',' :: renderItemsJoin (b :: bs)))
                  = (['}', ','] : List Char) ++ renderItemsJoin (b :: bs) from rfl]
              rw [show f + (renderItemJson it ++ (',' :: renderItemsJoin (b :: bs))).length
                  = (((f + (renderItemJson it).length - 2) + (renderItemsJoin (b :: bs)).length + 1)
                      + (['}', ','] : List Char).length) from by
                rw [hLen]
                simp only [List.length_cons, List.length_nil]
                omega]
              rw [scanRecoverItems_skip (['}', ','] : List Char) _ _
                (fun i hi => matchItemAt_drop_none _ _ (by decide) i hi)]
              rw [ih hits (f + (renderItemJson it).length - 2)]
              rw [recovered_head_none it hfc hit]
          | some fc =>
              have hfcOK := hit
              simp only [wellFormedItem, Bool.and_eq_true] at hfcOK
              have hfc3 := hfcOK.2
              rw [hfc] at hfc3
              have hfc2 : (plainStr fc && !(fc == "")) = true := hfc3
              simp only [Bool.and_eq_true] at hfc2
              have hfcp : fc.data.all plainChar = true := hfc2.1
              have hTlen := renderItemJson_length_some it fc hfc
              rw [matchItemAt_render_some it fc hfc hit]
              simp only [matchFoundClauseAt_tail fc hfcp]
              have hPshape : (',' :: ('"' :: ("foundClause".data
                  ++ ('"' :: (':' :: ('"' :: (fc.data
                      ++ ('"' :: ('}' :: (',' :: renderItemsJoin (b :: bs)))))))))))
                  = (',' :: ('"' :: ("foundClause".data
                      ++ ('"' :: (':' :: ('"' :: (fc.data ++ ('"' :: ('}' :: (',' :: []))))))))))
                    ++ renderItemsJoin (b :: bs) := by
                simp
              rw [hPshape]
              have hPall : ((',' :: ('"' :: ("foundClause".data
                  ++ ('"' :: (':' :: ('"' :: (fc.data ++ ('"' :: ('}' :: (',' :: [])))))))))) : List Char).all
                    (fun c => !(c == '{')) = true := by
                simp only [List.all_cons, List.all_append, Bool.and_eq_true]
                refine ⟨by decide, by decide, by decide, by decide, by decide, by decide,
                  all_of_plain_no_brace fc.data hfcp, by decide⟩
              have hPlen : ((',' :: ('"' :: ("foundClause".data
                  ++ ('"' :: (':' :: ('"' :: (fc.data ++ ('"' :: ('}' :: (',' :: [])))))))))) : List Char).length
                  = 19 + fc.data.length := by
                have e11 : (("foundClause" : String).data).length = 11 := rfl
                simp only [List.length_cons, List.length_append, List.length_nil, e11]
                omega
              rw [show f + (renderItemJson it ++ (',' :: renderItemsJoin (b :: bs))).length
                  = (((f + (renderItemJson it).length - (19 + fc.data.length))
                        + (renderItemsJoin (b :: bs)).length + 1)
                      + ((',' :: ('"' :: ("foundClause".data
                          ++ ('"' :: (':' :: ('"' :: (fc.data
                              ++ ('"' :: ('}' :: (',' :: [])))))))))) : List Char).length) from by
                rw [hPlen, hLen]
                omega]
              rw [scanRecoverItems_skip _ _ _
                (fun i hi => matchItemAt_drop_none _ _ hPall i hi)]
              rw [ih hits (f + (renderItemJson it).length - (19 + fc.data.length))]
              rw [recovered_head_some it fc hfc hit]


theorem all_digit_no_brace (n : Nat) :
    (natDigitsChars n).all (fun c => !(c == '{')) = true := by
  have h := natDigitsChars_all_digit n
  rw [List.all_eq_true] at h ⊢
  intro c hc
  have := (isDigitChar_props (h c hc)).2.2.2.2.2.2.1
  simpa using this

theorem all_wf_take (k : Nat) (items : List AnalysisResultItem)
    (h : items.all wellFormedItem = true) :
    (items.take k).all wellFormedItem = true := by
  rw [List.all_eq_true] at h ⊢
  exact fun x hx => h x (List.mem_of_mem_take hx)

theorem renderTruncatedPayload_decomp (score : Nat) (items : List AnalysisResultItem) (k : Nat) :
    renderTruncatedPayload score items k
      = '{' :: ('"' :: ("score".data ++ ('"' :: (':' :: (natDigitsChars score
          ++ (',' :: ('"' :: ("items".data
              ++ ('"' :: (':' :: ('[' :: renderItemsJoin (items.take k)))))))))))) := by
  simp [renderTruncatedPayload, chunk_score, chunk_items]

theorem scanRecoverItems_skip1 (g : Nat) (c : Char) (cs : List Char)
    (h : matchItemAt (c :: cs) = none) :
    scanRecoverItems (g + 1) (c :: cs) = scanRecoverItems g cs := by
  rw [scanRecoverItems_step, h]

/-- The recovery scan on the truncated payload returns exactly the first `k`
items. -/
theorem recoverItems_renderTruncated (score : Nat) (items : List AnalysisResultItem) (k : Nat)
    (hwf : items.all wellFormedItem = true) :
    recoverItemsFromTruncatedJson (renderTruncatedPayload score items k) = items.take k := by
  have htk := all_wf_take k items hwf
  have hHall : (('"' :: ("score".data ++ ('"' :: (':' :: (natDigitsChars score ++ (',' :: ('"' :: ("items".data ++ ('"' :: (':' :: ('[' :: ([] : List Char)))))))))))) : List Char).all (fun c => !(c == '{')) = true := by
    simp [List.all_cons, List.all_append, all_digit_no_brace score]
  unfold recoverItemsFromTruncatedJson
  rw [renderTruncatedPayload_decomp]
  rw [scanRecoverItems_skip1 _ _ _ (matchItemAt_header _)]
  rw [show ('"' :: ("score".data ++ ('"' :: (':' :: (natDigitsChars score
      ++ (',' :: ('"' :: ("items".data
          ++ ('"' :: (':' :: ('[' :: renderItemsJoin (items.take k))))))))))))
      = (('"' :: ("score".data ++ ('"' :: (':' :: (natDigitsChars score ++ (',' :: ('"' :: ("items".data ++ ('"' :: (':' :: ('[' :: ([] : List Char)))))))))))) : List Char) ++ renderItemsJoin (items.take k) from by simp]
  rw [show ('{' :: ((('"' :: ("score".data ++ ('"' :: (':' :: (natDigitsChars score ++ (',' :: ('"' :: ("items".data ++ ('"' :: (':' :: ('[' :: ([] : List Char)))))))))))) : List Char) ++ renderItemsJoin (items.take k))).length
      = ((renderItemsJoin (items.take k)).length + 1) + (('"' :: ("score".data ++ ('"' :: (':' :: (natDigitsChars score ++ (',' :: ('"' :: ("items".data ++ ('"' :: (':' :: ('[' :: ([] : List Char)))))))))))) : List Char).length from by
    simp only [List.length_cons, List.length_append, List.length_nil]
    omega]
  rw [scanRecoverItems_skip _ _ _
    (fun i hi => matchItemAt_drop_none _ _ hHall i hi)]
  rw [show (renderItemsJoin (items.take k)).length + 1
      = 0 + (renderItemsJoin (items.take k)).length + 1 from by omega]
  exact scanRecoverItems_join _ htk 0


/-! ### Helper lemmas: the strict parse fails on the truncated payload -/

theorem parseJsonValue_nil (g : Nat) : parseJsonValue g [] = none := by
  cases g <;> rfl

theorem parseJsonElems_nil (g : Nat) : parseJsonElems g [] = none := by
  cases g with
  | zero => rfl
  | succ g2 =>
      rw [parseJsonElems_step, parseJsonValue_nil]

theorem member_items_open_only (g : Nat) :
    parseJsonMembers ((g + 1) + 1)
      ('"' :: ("items".data ++ ('"' :: (':' :: ('[' :: ([] : List Char)))))) = none := by
  have h0 : parseJsonMembers ((g + 1) + 1)
        ('"' :: ("items".data ++ ('"' :: (':' :: ('[' :: ([] : List Char))))))
      = (match Option.map (fun p => (Json.arr p.1, p.2)) (parseJsonElems g ([] : List Char)) with
         | none => none
         | some (jv, r3) =>
             match jsSkipWs r3 with
             | ',' :: r4 =>
                 (match parseJsonMembers (g + 1) (jsSkipWs r4) with
                  | some (ms, r5) => some (("items", jv) :: ms, r5)
                  | none => none)
             | '}' :: r4 => some ([("items", jv)], r4)
             | _ => none) := rfl
  rw [h0, parseJsonElems_nil g]
  rfl

theorem parseJsonElems_renderItemsJoin_noclose (items : List AnalysisResultItem)
    (hwf : items.all wellFormedItem = true) (hne : items ≠ []) (f : Nat) :
    parseJsonElems (f + 9 * items.length) (renderItemsJoin items) = none := by
  induction items generalizing f with
  | nil => exact absurd rfl hne
  | cons it its ih =>
      simp only [List.all_cons, List.all_nil, Bool.and_eq_true] at hwf
      cases its with
      | nil =>
          have hv := parseJsonValue_renderItem it hwf.1 f []
          rw [List.append_nil] at hv
          show parseJsonElems ((f + 8) + 1) (renderItemJson it) = none
          rw [parseJsonElems_step, hv]
          rfl
      | cons it2 its2 =>
          obtain ⟨t, ht⟩ := renderItemsJoin_cons_head it2 its2
          have harg : renderItemsJoin (it :: it2 :: its2)
              = renderItemJson it ++ (',' :: ('{' :: t)) := by
            show renderItemJson it ++ (',' :: renderItemsJoin (it2 :: its2)) = _
            rw [ht]
          rw [harg]
          have hfuel : f + 9 * (it :: it2 :: its2).length = ((f + 9 * its2.length + 9) + 8) + 1 := by
            simp only [List.length_cons]
            omega
          rw [hfuel]
          rw [parseJsonElems_item_next (f + 9 * its2.length + 9) it hwf.1 t]
          rw [show ('{' : Char) :: t = renderItemsJoin (it2 :: its2) from ht.symm]
          have hfuel2 : (f + 9 * its2.length + 9) + 8 = (f + 8) + 9 * (it2 :: its2).length := by
            simp only [List.length_cons]
            omega
          rw [hfuel2]
          rw [ih hwf.2 (List.cons_ne_nil it2 its2) (f + 8)]

/-- The strict `JSON.parse` fails on the truncated payload. -/
theorem parseJsonValue_renderTruncated (score : Nat) (items : List AnalysisResultItem) (k : Nat)
    (hwf : items.all wellFormedItem = true) (f : Nat) :
    parseJsonValue (f + 9 * (items.take k).length + 4) (renderTruncatedPayload score items k)
      = none := by
  have htk := all_wf_take k items hwf
  rw [renderTruncatedPayload_decomp]
  cases htke : items.take k with
  | nil =>
      rw [show renderItemsJoin ([] : List AnalysisResultItem) = [] from rfl]
      rw [show f + 9 * ([] : List AnalysisResultItem).length + 4
          = ((f + 9 * ([] : List AnalysisResultItem).length + 3)) + 1 from rfl,
        parseJsonValue_obj_step]
      rw [show f + 9 * ([] : List AnalysisResultItem).length + 3
          = (f + 9 * ([] : List AnalysisResultItem).length + 1) + 2 from rfl,
        member_score_next (f + 9 * ([] : List AnalysisResultItem).length + 1) score]
      rw [show (f + 9 * ([] : List AnalysisResultItem).length + 1) + 1
          = ((f + 9 * ([] : List AnalysisResultItem).length) + 1) + 1 from rfl,
        member_items_open_only (f + 9 * ([] : List AnalysisResultItem).length)]
      rfl
  | cons a b =>
      rw [htke] at htk
      obtain ⟨t, ht⟩ := renderItemsJoin_cons_head a b
      rw [ht]
      rw [show f + 9 * (a :: b).length + 4
          = ((f + 9 * (a :: b).length + 3)) + 1 from rfl, parseJsonValue_obj_step]
      rw [show f + 9 * (a :: b).length + 3
          = (f + 9 * (a :: b).length + 1) + 2 from rfl,
        member_score_next (f + 9 * (a :: b).length + 1) score]
      rw [show (f + 9 * (a :: b).length + 1) + 1
          = ((f + 9 * (a :: b).length) + 1) + 1 from rfl,
        member_items_last (f + 9 * (a :: b).length)]
      rw [show ('{' : Char) :: t = renderItemsJoin (a :: b) from ht.symm]
      rw [parseJsonElems_renderItemsJoin_noclose (a :: b) htk (List.cons_ne_nil a b) f]
      rfl


theorem renderTruncatedPayload_fuel_le (score : Nat) (items : List AnalysisResultItem) (k : Nat) :
    9 * (items.take k).length + 4 ≤ 2 * (renderTruncatedPayload score items k).length + 2 := by
  have h := renderItemsJoin_length_ge (items.take k)
  have e1 : ("\x7b\"score\":".data).length = 9 := rfl
  simp only [renderTruncatedPayload, List.length_append, e1]
  omega

theorem runJsonParse_renderTruncated (score : Nat) (items : List AnalysisResultItem) (k : Nat)
    (hwf : items.all wellFormedItem = true) :
    runJsonParse (renderTruncatedPayload score items k) = none := by
  have hle := renderTruncatedPayload_fuel_le score items k
  have hkey := parseJsonValue_renderTruncated score items k hwf
    (2 * (renderTruncatedPayload score items k).length + 2 - (9 * (items.take k).length + 4))
  have hfe : 2 * (renderTruncatedPayload score items k).length + 2
        - (9 * (items.take k).length + 4) + 9 * (items.take k).length + 4
      = 2 * (renderTruncatedPayload score items k).length + 2 := by omega
  rw [hfe] at hkey
  simp [runJsonParse, hkey]

theorem strictParseAnalysis_renderTruncated (today fileName : String) (score : Nat)
    (items : List AnalysisResultItem) (k : Nat) (hwf : items.all wellFormedItem = true) :
    strictParseAnalysis today fileName (renderTruncatedPayload score items k) = none := by
  unfold strictParseAnalysis
  rw [runJsonParse_renderTruncated score items k hwf]

theorem renderTruncatedPayload_no_btk (score : Nat) (items : List AnalysisResultItem) (k : Nat)
    (hwf : items.all wellFormedItem = true) :
    '`' ∉ renderTruncatedPayload score items k := by
  intro hm
  have hj := renderItemsJoin_no_btk (items.take k) (all_wf_take k items hwf)
  have hd := natDigitsChars_no_btk score
  rw [renderTruncatedPayload] at hm
  simp [List.mem_append, hd, hj] at hm

theorem renderItemsJoin_last_ex (a : AnalysisResultItem) (b : List AnalysisResultItem) :
    ∃ y, renderItemsJoin (a :: b) = y ++ ['}'] := by
  induction b generalizing a with
  | nil =>
      refine ⟨"\x7b\"requirementId\":\"".data ++ a.requirementId.data
        ++ "\",\"status\":\"".data ++ (statusLiteral a.status).data
        ++ "\",\"comment\":\"".data ++ a.comment.data ++ "\"".data
        ++ (match a.foundClause with
            | some fc => ",\"foundClause\":\"".data ++ fc.data ++ "\"".data
            | none => []), ?_⟩
      show renderItemJson a = _
      simp [renderItemJson, List.append_assoc]
  | cons c d ih =>
      obtain ⟨y, hy⟩ := ih c
      refine ⟨renderItemJson a ++ (',' :: y), ?_⟩
      show renderItemJson a ++ (',' :: renderItemsJoin (c :: d)) = _
      rw [hy]
      simp [List.append_assoc]

theorem renderTruncatedPayload_last_ex (score : Nat) (items : List AnalysisResultItem) (k : Nat)
    (a : AnalysisResultItem) (b : List AnalysisResultItem) (htke : items.take k = a :: b) :
    ∃ y, renderTruncatedPayload score items k = y ++ ['}'] := by
  obtain ⟨y, hy⟩ := renderItemsJoin_last_ex a b
  refine ⟨"\x7b\"score\":".data ++ natDigitsChars score ++ ",\"items\":[".data ++ y, ?_⟩
  rw [renderTruncatedPayload, htke, hy]
  simp [List.append_assoc]

theorem extractJsonString_renderTruncated (score : Nat) (items : List AnalysisResultItem)
    (k : Nat) (a : AnalysisResultItem) (b : List AnalysisResultItem)
    (hwf : items.all wellFormedItem = true) (htke : items.take k = a :: b) :
    extractJsonString (renderTruncatedPayload score items k)
      = renderTruncatedPayload score items k := by
  have hnb := renderTruncatedPayload_no_btk score items k hwf
  obtain ⟨x, hx⟩ : ∃ x, renderTruncatedPayload score items k = '{' :: x :=
    ⟨_, renderTruncatedPayload_decomp score items k⟩
  obtain ⟨y, hy⟩ := renderTruncatedPayload_last_ex score items k a b htke
  simp only [extractJsonString, extractFencedBlock_no_btk _ hnb,
    stripFencesFallback_no_btk _ hnb]
  exact objectSlice_id _ x y hx hy


/-- **C4 (amended).** For every well-formed payload truncated mid-array right
after the `k`-th complete item object (`1 ≤ k ≤ items.length`),
`parseAIResponse` returns `isPartial = true` with exactly the first `k`
items, a score recomputed from those `k` items by the weighted scoring
algorithm, and an executive summary prefixed with the warning carrying the
recovered count.  (The original claim, that the recovered items are always
exactly the complete item objects preceding the truncation point, fails on
truncations cutting inside a later item whose string fields hide a closing
brace — see the counterexample theorem.) -/
theorem parseAIResponse_truncation_amended (today fileName : String) (score : Nat)
    (items : List AnalysisResultItem) (k : Nat) (resp : String)
    (hwf : items.all wellFormedItem = true) (hk1 : 1 ≤ k) (hk2 : k ≤ items.length)
    (hresp : resp.data = renderTruncatedPayload score items k) :
    ∃ a : ContractAnalysis,
      parseAIResponse today fileName resp = .ok (a, true, k)
        ∧ a.items = items.take k
        ∧ a.score = calculateScoreFromItems (items.take k)
        ∧ (∃ s, a.executiveSummary
            = "⚠️ Résultats partiels (" ++ toString k ++ " items récupérés). " ++ s)
        ∧ a.recommendedClauses = [] := by
  cases htke : items.take k with
  | nil =>
      exfalso
      have := congrArg List.length htke
      simp only [List.length_take, List.length_nil] at this
      omega
  | cons a0 b0 =>
      have hrec := recoverItems_renderTruncated score items k hwf
      have hcount : (items.take k).length = k := by
        simp only [List.length_take]
        omega
      have hcount2 : (a0 :: b0).length = k := htke ▸ hcount
      refine ⟨buildPartialAnalysis today fileName (renderTruncatedPayload score items k)
        (a0 :: b0), ?_, rfl, rfl, ⟨_, by simp only [buildPartialAnalysis]; rw [hcount2]⟩, rfl⟩
      simp only [parseAIResponse, hresp,
        extractJsonString_renderTruncated score items k a0 b0 hwf htke,
        strictParseAnalysis_renderTruncated today fileName score items k hwf,
        hrec, htke, hcount2]

/-- Witness for the amended C4 at a concrete two-item payload truncated
right after its first item. -/
theorem parseAIResponse_truncation_amended_witness :
    ∃ a : ContractAnalysis,
      parseAIResponse "2025-01-01" "contrat.pdf"
          "\x7b\"score\":90,\"items\":[\x7b\"requirementId\":\"I.1\",\"status\":\"COMPLIANT\",\"comment\":\"a\"\x7d"
        = .ok (a, true, 1)
        ∧ a.items = ([({ requirementId := "I.1", status := .COMPLIANT, comment := "a", foundClause := none } : AnalysisResultItem), { requirementId := "I.2", status := .ABSENT, comment := "b", foundClause := none }].take 1)
        ∧ a.score = calculateScoreFromItems ([({ requirementId := "I.1", status := .COMPLIANT, comment := "a", foundClause := none } : AnalysisResultItem), { requirementId := "I.2", status := .ABSENT, comment := "b", foundClause := none }].take 1)
        ∧ (∃ s, a.executiveSummary
            = "⚠️ Résultats partiels (" ++ toString 1 ++ " items récupérés). " ++ s)
        ∧ a.recommendedClauses = [] :=
  parseAIResponse_truncation_amended "2025-01-01" "contrat.pdf" 90
    [({ requirementId := "I.1", status := .COMPLIANT, comment := "a", foundClause := none } : AnalysisResultItem), { requirementId := "I.2", status := .ABSENT, comment := "b", foundClause := none }]
    1
    "\x7b\"score\":90,\"items\":[\x7b\"requirementId\":\"I.1\",\"status\":\"COMPLIANT\",\"comment\":\"a\"\x7d"
    (by decide) (by decide) (by decide)
    (by
      have h90 : natDigitsChars 90 = ['9', '0'] := by
        rw [natDigitsChars, natDigitsChars]
        decide
      simp only [renderTruncatedPayload, h90, List.take, renderItemsJoin, renderItemJson]
      decide)

end ICTCheck
